import Mathlib

/-!
Shallow embedding of the Git Tutor simulated version-control engine
(`src/git_tutor/script.js`, class `SimulatedRepo` and class `RemoteStore`),
with theorems checking the natural-language specification against it.

JavaScript objects used as maps are modelled as association lists
(`List (String × α)`) so that JS property-insertion order — observable via
`Object.keys`, spreads and `for … of Object.entries` — is preserved.
`obj[k] = v` updates in place when the key exists and appends otherwise;
`delete obj[k]` removes the entry.  A JS value that may be `null`
(branch heads, staged contents) is an `Option`.  `deepCopy` (a JSON
round-trip of plain data) is the identity on these pure values.
The random `genHash()` and `Date.now()` are modelled as explicit `hash`
and `time` parameters supplied by the environment.
-/

namespace GitTutor

/-- JS object lookup `obj[k]` (first matching key). -/
def alookup {α : Type} : List (String × α) → String → Option α
  | [], _ => none
  | (k, v) :: rest, key => if k = key then some v else alookup rest key

/-- JS assignment `obj[k] = v`: update in place if present, else append. -/
def aset {α : Type} : List (String × α) → String → α → List (String × α)
  | [], key, v => [(key, v)]
  | (k, w) :: rest, key, v =>
      if k = key then (k, v) :: rest else (k, w) :: aset rest key v

/-- JS `delete obj[k]`. -/
def adel {α : Type} : List (String × α) → String → List (String × α)
  | [], _ => []
  | (k, w) :: rest, key =>
      if k = key then adel rest key else (k, w) :: adel rest key

/-- JS `Object.keys obj`. -/
def akeys {α : Type} (l : List (String × α)) : List String := l.map Prod.fst

/-- `new Set(list)` spread back into an array: keep the first occurrence. -/
def jsDedup : List String → List String
  | [] => []
  | x :: rest => x :: (jsDedup rest).filter (· ≠ x)

/-- JS `a || b` on strings (empty string is falsy). -/
def jsOrStr (a b : String) : String := if a = "" then b else a

/-- Lexicographic comparison of character lists by code point: the order
JS `Array.prototype.sort()` applies to these ASCII path and branch-name
strings (JS compares UTF-16 code units, which agree with code points on
the Basic Multilingual Plane). -/
def charListLe : List Char → List Char → Bool
  | [], _ => true
  | _ :: _, [] => false
  | a :: as, b :: bs =>
      if a.toNat < b.toNat then true
      else if b.toNat < a.toNat then false
      else charListLe as bs

/-- String comparison used by the JS default sort. -/
def strLe (a b : String) : Bool := charListLe a.data b.data

/-- Insert into a sorted list, used to model `Array.prototype.sort()`.
The engine's sort is stable and the inputs are duplicate-free, so the
sorted result is the unique `strLe`-ordered permutation, which insertion
sort produces. -/
def insertSorted (x : String) : List String → List String
  | [] => [x]
  | y :: rest => if strLe x y then x :: y :: rest else y :: insertSorted x rest

/-- `list.sort()` in JS (default string comparison). -/
def jsSort (l : List String) : List String :=
  l.foldl (fun acc x => insertSorted x acc) []

/-- Split a character list at a separator, keeping empty segments
(`"a/b".split("/")` in JS). -/
def splitCharAux (sep : Char) : List Char → List Char → List String
  | [], acc => [String.mk acc.reverse]
  | x :: rest, acc =>
      if x = sep then String.mk acc.reverse :: splitCharAux sep rest []
      else splitCharAux sep rest (x :: acc)

/-- `str.split(sep)` for a one-character separator. -/
def jsSplitChar (sep : Char) (str : String) : List String :=
  splitCharAux sep str.data []

/-- `a.startsWith(b)` over the character data. -/
def strStartsWith (a b : String) : Bool := b.data.isPrefixOf a.data

/-- `a.endsWith(b)` over the character data. -/
def strEndsWith (a b : String) : Bool := b.data.isSuffixOf a.data

/-- `str.trim()`. -/
def jsTrim (str : String) : String :=
  String.mk
    (((str.data.dropWhile Char.isWhitespace).reverse.dropWhile
      Char.isWhitespace).reverse)

/-- `str.toLowerCase()` (ASCII, as used on hex hashes). -/
def jsToLower (str : String) : String := String.mk (str.data.map Char.toLower)

/-- `normalizePath` (script.js): collapse `.` and `..`, strip empty
segments, root at `/`.  `replaceAll("\\", "/")` is a character map
because the pattern is a single character. -/
def normalizePath (inputPath : String) : String :=
  let raw := String.mk
    (inputPath.data.map fun c => if c = '\\' then '/' else c)
  let parts := (jsSplitChar '/' raw).filter (· ≠ "")
  let stack := parts.foldl
    (fun st part =>
      if part = "." then st
      else if part = ".." then st.dropLast
      else st ++ [part]) ([] : List String)
  "/" ++ String.intercalate "/" stack

/-- `joinPath` (script.js). -/
def joinPath (cwd maybeRelative : String) : String :=
  if strStartsWith maybeRelative "/" then normalizePath maybeRelative
  else
    let base := if cwd = "" then "/" else cwd
    let combined := if strEndsWith base "/" then base ++ maybeRelative
      else base ++ "/" ++ maybeRelative
    normalizePath combined

/-- `dirname` (script.js). -/
def dirname (path : String) : String :=
  let p := normalizePath path
  if p = "/" then "/"
  else
    let parts := (jsSplitChar '/' p).filter (· ≠ "")
    "/" ++ String.intercalate "/" parts.dropLast

/-- `basename` (script.js). -/
def basename (path : String) : String :=
  let p := normalizePath path
  if p = "/" then "/"
  else
    let parts := (jsSplitChar '/' p).filter (· ≠ "")
    match parts.getLast? with
    | some b => b
    | none => "/"

/-- `shortHash` (script.js); `none` and the empty string are falsy. -/
def shortHash (hash : Option String) : String :=
  match hash with
  | none => "—"
  | some h => if h = "" then "—" else h.take 7

/-- A commit record (`this.commits[hash]` in script.js).  `files` is the
complete path → content snapshot. -/
structure Commit where
  hash : String
  message : String
  parents : List String
  timestamp : Nat
  files : List (String × String)
  lane : Nat
  branch : String
deriving DecidableEq

/-- `this.mergeState` when non-null. -/
structure MergeState where
  theirBranch : String
  theirHash : String
  conflicts : List String
deriving DecidableEq

/-- One entry of `this.stash`.  Staged contents use `none` for the JS
`null` deletion marker. -/
structure StashEntry where
  message : String
  workingFiles : List (String × String)
  stagedFiles : List (String × Option String)
  createdAt : Nat
deriving DecidableEq

/-- `this.branchMeta[name]`. -/
structure BranchMeta where
  lane : Nat
  color : String
deriving DecidableEq

/-- `this.upstreams[branch]`. -/
structure Upstream where
  remote : String
  branch : String
deriving DecidableEq

/-- `this.lastEvent` descriptors (badge triggers). -/
inductive Event where
  | fsWrite (path : String)
  | fsMkdir (path : String)
  | fsTouch (path : String)
  | fsRm (path : String)
  | gitInitEv
  | gitAddEv (paths : List String)
  | gitCommitEv (hash message : String)
  | gitBranchCreate (branch : String)
  | gitCheckoutNew (branch : String)
  | gitCheckoutEv (branch : String)
  | gitMergeFF (branch : String)
  | gitMergeConflict (branch : String) (conflicts : List String)
  | gitMergeEv (branch : String)
  | gitRemoteAdd (name url : String)
  | gitPushEv (remote branch : String)
  | gitPullFF (remote branch : String)
  | gitPullMerge (remote branch : String)
  | gitCloneEv (url : String)
  | gitStashEv
  | gitStashPop
  | gitResetHard (target : String)
  | gitRevertEv (hash : String)
deriving DecidableEq

/-- The mutable state of `SimulatedRepo`.  Branch heads are `Option String`
(`none` = JS `null`, an unborn branch); a missing key is `undefined`. -/
structure RepoState where
  initialized : Bool
  cwd : String
  directories : List (String × Bool)
  workingFiles : List (String × String)
  stagedFiles : List (String × Option String)
  commits : List (String × Commit)
  commitOrder : List String
  branches : List (String × Option String)
  currentBranch : String
  branchMeta : List (String × BranchMeta)
  nextLane : Nat
  mergeState : Option MergeState
  remotes : List (String × String)
  upstreams : List (String × Upstream)
  stash : List StashEntry
  lastEvent : Option Event
deriving DecidableEq

/-- The `{ok, exitCode, stdout, stderr}` result of every command.  A JS
result object that omits `stdout`/`stderr` is rendered with `[]`
(the UI prints `asArray(undefined) = []`). -/
structure CmdResult where
  ok : Bool
  exitCode : Nat
  stdout : List String
  stderr : List String
deriving DecidableEq

/-- `BRANCH_COLORS` (script.js). -/
def BRANCH_COLORS : List String :=
  ["#4cc9f0", "#b392f0", "#2ee59d", "#ffd166", "#ff5470", "#ff9f1c"]

/-- `SimulatedRepo.reset()`: the pristine state. -/
def resetState : RepoState where
  initialized := false
  cwd := "/"
  directories := [("/", true)]
  workingFiles := []
  stagedFiles := []
  commits := []
  commitOrder := []
  branches := [("main", none)]
  currentBranch := "main"
  branchMeta := [("main", ⟨0, "#4cc9f0"⟩)]
  nextLane := 1
  mergeState := none
  remotes := []
  upstreams := []
  stash := []
  lastEvent := none

namespace RepoState

/-- `get head()`: `this.branches[this.currentBranch] ?? null`. -/
def head (s : RepoState) : Option String :=
  (alookup s.branches s.currentBranch).join

/-- `set head(hash)`. -/
def setHead (s : RepoState) (hash : Option String) : RepoState :=
  { s with branches := aset s.branches s.currentBranch hash }

end RepoState

/-- `getSnapshot(hash)`: `{}` for null/missing hashes and unknown commits. -/
def getSnapshot (s : RepoState) (hash : Option String) : List (String × String) :=
  match hash with
  | none => []
  | some h =>
      if h = "" then []
      else
        match alookup s.commits h with
        | some c => c.files
        | none => []

/-- `getHeadSnapshot()`. -/
def getHeadSnapshot (s : RepoState) : List (String × String) :=
  getSnapshot s s.head

/-- `listAllPaths()`: sorted union of working, HEAD and staged paths. -/
def listAllPaths (s : RepoState) : List String :=
  jsSort (jsDedup (akeys s.workingFiles ++ akeys (getHeadSnapshot s) ++
    akeys s.stagedFiles))

/-- `relPath`: user-facing display strips the leading `/`. -/
def relPath (absPath : String) : String :=
  let p := normalizePath absPath
  if p = "/" then "/"
  else if strStartsWith p "/" then p.drop 1
  else p

/-- One `{path, code}` entry of a status list (`code` is "A", "M" or "D"). -/
structure StatusEntry where
  path : String
  code : String
deriving DecidableEq

/-- The record `getStatus()` returns. -/
structure Status where
  branch : String
  initialized : Bool
  hasCommits : Bool
  staged : List StatusEntry
  unstaged : List StatusEntry
  untracked : List StatusEntry
  mergeState : Option MergeState
  conflicts : List String
  isDirty : Bool
deriving DecidableEq

/-- The staged-differences branch of the `getStatus()` loop body for one
path: index vs HEAD (runs before the untracked `continue`). -/
def stagedEntryOf (headSnap : List (String × String))
    (stagedMap : List (String × Option String)) (path : String) :
    Option StatusEntry :=
  match alookup stagedMap path with
  | none => none
  | some stagedContent =>
      let headContent := alookup headSnap path
      let indexContent : Option String := stagedContent
      if headContent = none then
        if indexContent.isSome then some ⟨path, "A"⟩ else none
      else if indexContent = none then some ⟨path, "D"⟩
      else if indexContent ≠ headContent then some ⟨path, "M"⟩
      else none

/-- The untracked branch of the loop body: present in working tree and
absent from HEAD (the index is not consulted). -/
def untrackedEntryOf (headSnap workingFiles : List (String × String))
    (path : String) : Option StatusEntry :=
  if alookup headSnap path = none ∧ (alookup workingFiles path).isSome then
    some ⟨path, "A"⟩
  else none

/-- The working-differences branch of the loop body: working tree vs the
index baseline.  In the untracked case (`headHas` false, `workHas` true)
both sub-branches are vacuous, matching the `continue` in the source. -/
def unstagedEntryOf (headSnap workingFiles : List (String × String))
    (stagedMap : List (String × Option String)) (path : String) :
    Option StatusEntry :=
  let headContent := alookup headSnap path
  let workContent := alookup workingFiles path
  let stageLookup := alookup stagedMap path
  let indexBaseline : Option String :=
    match stageLookup with
    | some stagedContent => stagedContent
    | none => headContent
  if headContent.isSome ∧ workContent = none then
    if stageLookup = none then some ⟨path, "D"⟩ else none
  else if headContent.isSome ∧ workContent.isSome ∧ workContent ≠ headContent
  then
    if workContent ≠ indexBaseline then some ⟨path, "M"⟩ else none
  else none

/-- `getStatus()`.  The source pushes into three arrays in one loop over
`listAllPaths()`; each iteration appends at most one entry per array and
reads only that iteration's path, so each array is the `filterMap` of its
branch of the loop body.  Conflict paths are skipped entirely. -/
def getStatus (s : RepoState) : Status :=
  let headSnap := getHeadSnapshot s
  let conflictsSet : List String :=
    match s.mergeState with
    | some ms => jsDedup ms.conflicts
    | none => []
  let allPaths := listAllPaths s
  let staged := allPaths.filterMap fun p =>
    if p ∈ conflictsSet then none else stagedEntryOf headSnap s.stagedFiles p
  let unstaged := allPaths.filterMap fun p =>
    if p ∈ conflictsSet then none
    else unstagedEntryOf headSnap s.workingFiles s.stagedFiles p
  let untracked := allPaths.filterMap fun p =>
    if p ∈ conflictsSet then none
    else untrackedEntryOf headSnap s.workingFiles p
  { branch := s.currentBranch
    initialized := s.initialized
    hasCommits := decide (s.commitOrder.length > 0)
    staged := staged
    unstaged := unstaged
    untracked := untracked
    mergeState := s.mergeState
    conflicts :=
      match s.mergeState with
      | some ms => ms.conflicts
      | none => []
    isDirty :=
      decide (s.stagedFiles.length > 0) || decide (staged.length > 0) ||
      decide (unstaged.length > 0) || decide (untracked.length > 0) ||
      (match s.mergeState with
       | some ms => decide (ms.conflicts.length > 0)
       | none => false) }

/-- `ensureInitialized()`'s failure result (the JS object carries no
`stdout`; the UI prints it as the empty array). -/
def notRepoResult : CmdResult :=
  ⟨false, 1, [], ["fatal: not a git repository (simulated)"]⟩

/-- `statusLabel` (script.js). -/
def statusLabel (code : String) : String :=
  if code = "A" then "new file"
  else if code = "M" then "modified"
  else if code = "D" then "deleted"
  else "changed"

/-- `if (!branches.main) branches.main = branches.main ?? null` — shared
by `gitInit` and `deserialize`.  The empty string is falsy but not
nullish, so it is written back unchanged. -/
def fixupMainBranch (branches : List (String × Option String)) :
    List (String × Option String) :=
  match alookup branches "main" with
  | none => aset branches "main" none
  | some none => aset branches "main" none
  | some (some h) => if h = "" then aset branches "main" (some h) else branches

/-- `gitInit()`. -/
def gitInit (s : RepoState) : CmdResult × RepoState :=
  let already := s.initialized
  let branches1 := fixupMainBranch s.branches
  let current1 := if s.currentBranch = "" then "main" else s.currentBranch
  let s1 := { s with
    initialized := true, branches := branches1,
    currentBranch := current1, lastEvent := some Event.gitInitEv }
  (⟨true, 0,
    [if already then "Reinitialized existing Git repository (simulated)."
     else "Initialized empty Git repository (simulated)."], []⟩, s1)

/-- A section of `gitStatus()` output. -/
def statusSection (title : String) (lines : List String) : List String :=
  if lines = [] then [] else ["", title] ++ lines.map (fun l => "  " ++ l)

/-- `gitStatus()`. -/
def gitStatus (s : RepoState) : CmdResult × RepoState :=
  if s.initialized = false then (notRepoResult, s)
  else
    let status := getStatus s
    let out0 := ["On branch " ++ status.branch] ++
      (if status.hasCommits then [] else ["No commits yet"])
    let out1 := out0 ++
      (match status.mergeState with
       | some _ =>
           ["", "You are in the middle of a merge."] ++
           (if status.conflicts ≠ [] then
              ["  (fix conflicts and run \"git add <file>\" then \"git commit\")"]
            else
              ["  (all conflicts fixed: run \"git commit\" to conclude merge)"])
       | none => [])
    let stagedLines := status.staged.map fun f =>
      statusLabel f.code ++ ":   " ++ relPath f.path
    let unstagedLines := status.unstaged.map fun f =>
      statusLabel f.code ++ ":   " ++ relPath f.path
    let untrackedLines := status.untracked.map fun f => relPath f.path
    let out2 := out1 ++ statusSection "Changes to be committed:" stagedLines ++
      statusSection "Changes not staged for commit:" unstagedLines ++
      statusSection "Untracked files:" untrackedLines
    let out3 := out2 ++
      (if status.staged = [] ∧ status.unstaged = [] ∧ status.untracked = [] ∧
          status.conflicts = [] then
         ["", "nothing to commit, working tree clean"]
       else [])
    let out4 := out3 ++
      (if status.conflicts ≠ [] then
         ["", "Unmerged paths:"] ++
         status.conflicts.map (fun p => "  both modified: " ++ relPath p)
       else [])
    (⟨true, 0, out4, []⟩, s)

/-- `gitAdd(args)`.  Targets matching the working tree are staged as they
are visited; a target matching neither working tree nor HEAD only records
an error, and the error return does not undo the staging already done. -/
def gitAdd (s : RepoState) (args : List String) : CmdResult × RepoState :=
  if s.initialized = false then (notRepoResult, s)
  else if args = [] then
    (⟨false, 1, [], ["fatal: pathspec is required"]⟩, s)
  else
    let targets : List String :=
      if "." ∈ args ∨ "-A" ∈ args ∨ "--all" ∈ args then
        jsDedup (akeys s.workingFiles ++ akeys (getHeadSnapshot s))
      else args.map (joinPath s.cwd)
    let headSnap := getHeadSnapshot s
    let conflicts0 : List String :=
      match s.mergeState with
      | some ms => jsDedup ms.conflicts
      | none => []
    let step := fun
      (acc : List (String × Option String) × List String × List String ×
        List String) (path : String) =>
      let (staged, conflicts, added, errors) := acc
      match alookup s.workingFiles path with
      | some content =>
          (aset staged path (some content), conflicts.filter (· ≠ path),
           added ++ [path], errors)
      | none =>
          if (alookup headSnap path).isSome then
            (aset staged path none, conflicts, added ++ [path], errors)
          else
            (staged, conflicts, added,
             errors ++ ["fatal: pathspec '" ++ relPath path ++
               "' did not match any files"])
    let folded := targets.foldl step (s.stagedFiles, conflicts0, [], [])
    let s1 := { s with stagedFiles := folded.1 }
    let s2 :=
      match s1.mergeState with
      | some ms =>
          { s1 with mergeState := some { ms with conflicts := folded.2.1 } }
      | none => s1
    if folded.2.2.2 ≠ [] then (⟨false, 1, [], folded.2.2.2⟩, s2)
    else
      (⟨true, 0, [], []⟩,
       { s2 with
         lastEvent := some (Event.gitAddEv (folded.2.2.1.map relPath)) })

/-- JS `expr || null` on an optional string (the empty string is falsy). -/
def jsOrNull (x : Option String) : Option String :=
  match x with
  | some v => if v = "" then none else some v
  | none => none

/-- `ensureBranchMeta(branchName)`. -/
def ensureBranchMeta (s : RepoState) (branchName : String) : RepoState :=
  if (alookup s.branchMeta branchName).isSome then s
  else
    let lane := s.nextLane
    let color := BRANCH_COLORS.getD (lane % BRANCH_COLORS.length) ""
    { s with
      branchMeta := aset s.branchMeta branchName ⟨lane, color⟩,
      nextLane := s.nextLane + 1 }

/-- The `-m` scan inside `gitCommit`: the argument after the first `-m`
that has one, else the empty string. -/
def parseCommitMessage : List String → String
  | [] => ""
  | [_] => ""
  | a :: b :: rest => if a = "-m" then b else parseCommitMessage (b :: rest)

/-- `for ([path, content] of Object.entries(staged))`: apply index
entries to a snapshot; `none` deletes, `some` overwrites. -/
def applyStaged (base : List (String × String))
    (staged : List (String × Option String)) : List (String × String) :=
  staged.foldl
    (fun acc e =>
      match e.2 with
      | none => adel acc e.1
      | some content => aset acc e.1 content) base

/-- `gitCommit(args)`.  `hash` stands for the random `genHash()` and
`time` for `Date.now()`. -/
def gitCommit (s : RepoState) (args : List String) (hash : String)
    (time : Nat) : CmdResult × RepoState :=
  if s.initialized = false then (notRepoResult, s)
  else
    let status := getStatus s
    if ¬(status.staged.length > 0 ∨ s.stagedFiles.length > 0) then
      (⟨false, 1, [], ["nothing to commit (no staged changes)"]⟩, s)
    else if (match s.mergeState with
             | some ms => decide (ms.conflicts.length > 0)
             | none => false) then
      (⟨false, 1, [],
        ["error: Committing is not possible because you have unmerged files."]⟩,
       s)
    else
      let message0 := parseCommitMessage args
      let message :=
        if message0 = "" then
          match s.mergeState with
          | some ms => "Merge branch '" ++ ms.theirBranch ++ "'"
          | none => "Commit"
        else message0
      let parents :=
        (match jsOrNull s.head with
         | some h => [h]
         | none => []) ++
        (match s.mergeState with
         | some ms => if ms.theirHash = "" then [] else [ms.theirHash]
         | none => [])
      let next := applyStaged (getHeadSnapshot s) s.stagedFiles
      let sMeta := ensureBranchMeta s s.currentBranch
      let meta := (alookup sMeta.branchMeta s.currentBranch).getD ⟨0, ""⟩
      let commit : Commit :=
        ⟨hash, message, parents, time, next, meta.lane, s.currentBranch⟩
      let s1 := { sMeta with
        commits := aset sMeta.commits hash commit,
        commitOrder := sMeta.commitOrder ++ [hash] }
      let s2 := s1.setHead (some hash)
      let s3 := { s2 with
        workingFiles := applyStaged s2.workingFiles s.stagedFiles,
        stagedFiles := [], mergeState := none,
        lastEvent := some (Event.gitCommitEv hash message) }
      let fileCount :=
        if status.staged.length ≠ 0 then status.staged.length else next.length
      (⟨true, 0,
        ["[" ++ s.currentBranch ++ " " ++ shortHash (some hash) ++ "] " ++
           message,
         toString fileCount ++ " file(s) changed (simulated)"], []⟩, s3)

/-- The first-parent walk inside `gitLog`; `locale` renders
`new Date(t).toLocaleString()`.  The fuel only bounds the walk: each
iteration adds an unseen commit key to `seen`, so
`commits.length + 1` steps always suffice. -/
def gitLogLoop (s : RepoState) (locale : Nat → String) (oneline : Bool) :
    Option String → List String → Nat → List String
  | _, _, 0 => []
  | none, _, _ => []
  | some cur, seen, fuel + 1 =>
      if cur = "" ∨ cur ∈ seen then []
      else
        match alookup s.commits cur with
        | none => []
        | some c =>
            (if oneline then [shortHash (some c.hash) ++ " " ++ c.message]
             else
               ["commit " ++ c.hash, "Date:   " ++ locale c.timestamp, "",
                "    " ++ c.message, ""]) ++
            gitLogLoop s locale oneline (jsOrNull c.parents.head?)
              (cur :: seen) fuel

/-- `gitLog(args)`. -/
def gitLog (s : RepoState) (locale : Nat → String) (args : List String) :
    CmdResult × RepoState :=
  if s.initialized = false then (notRepoResult, s)
  else
    match jsOrNull s.head with
    | none =>
        (⟨false, 1, [], ["fatal: your current branch has no commits"]⟩, s)
    | some h =>
        let oneline := "--oneline" ∈ args
        (⟨true, 0,
          gitLogLoop s locale oneline (some h) [] (s.commits.length + 1),
          []⟩, s)

/-- `gitBranch(args)`. -/
def gitBranch (s : RepoState) (args : List String) : CmdResult × RepoState :=
  if s.initialized = false then (notRepoResult, s)
  else
    let name := args.headD ""
    if name = "" then
      let out := (jsSort (akeys s.branches)).map fun b =>
        if b = s.currentBranch then "* " ++ b else "  " ++ b
      (⟨true, 0, out, []⟩, s)
    else if (alookup s.branches name).isSome then
      (⟨false, 1, [],
        ["fatal: A branch named '" ++ name ++ "' already exists."]⟩, s)
    else
      let s1 := { s with branches := aset s.branches name s.head }
      let s2 := ensureBranchMeta s1 name
      (⟨true, 0, [], []⟩,
       { s2 with lastEvent := some (Event.gitBranchCreate name) })

/-- `gitCheckout(args)`. -/
def gitCheckout (s : RepoState) (args : List String) : CmdResult × RepoState :=
  if s.initialized = false then (notRepoResult, s)
  else
    let status := getStatus s
    if status.isDirty then
      (⟨false, 1, [],
        ["error: Your local changes would be overwritten by checkout (simulated).",
         "Hint: commit, stash, or reset before switching branches."]⟩, s)
    else if args = [] then
      (⟨false, 1, [], ["fatal: branch name required"]⟩, s)
    else if args.headD "" = "-b" then
      let name := args.getD 1 ""
      if name = "" then
        (⟨false, 1, [], ["fatal: -b requires a branch name"]⟩, s)
      else if (alookup s.branches name).isSome then
        (⟨false, 1, [],
          ["fatal: A branch named '" ++ name ++ "' already exists."]⟩, s)
      else
        let s1 := { s with branches := aset s.branches name s.head }
        let s2 := ensureBranchMeta s1 name
        let s3 := { s2 with currentBranch := name }
        let s4 := { s3 with
          workingFiles := getHeadSnapshot s3,
          lastEvent := some (Event.gitCheckoutNew name) }
        (⟨true, 0, ["Switched to a new branch '" ++ name ++ "'"], []⟩, s4)
    else
      let name := args.headD ""
      if alookup s.branches name = none then
        (⟨false, 1, [],
          ["error: pathspec '" ++ name ++ "' did not match any branch"]⟩, s)
      else
        let s1 := { s with currentBranch := name }
        let s2 := ensureBranchMeta s1 name
        let s3 := { s2 with
          workingFiles := getHeadSnapshot s2, stagedFiles := [],
          mergeState := none, lastEvent := some (Event.gitCheckoutEv name) }
        (⟨true, 0, ["Switched to branch '" ++ name ++ "'"], []⟩, s3)

/-- Fuel for the graph walks.  Every walk pops one stack/queue entry per
iteration and expands each commit at most once (a `seen`/`dist` check
guards the expansion), so the pops never exceed the initial entry plus
the total number of parent edges. -/
def ancestorFuel (s : RepoState) : Nat :=
  1 + (s.commits.map fun e => e.2.parents.length).sum

/-- The DFS loop of `isAncestor`: the stack is popped from the front, so
parents are pushed reversed (JS pushes at the array end and pops there). -/
def isAncestorLoop (s : RepoState) (ancestorHash : String) :
    List String → List String → Nat → Bool
  | _, _, 0 => false
  | [], _, _ => false
  | cur :: stack, seen, fuel + 1 =>
      if cur = "" ∨ cur ∈ seen then isAncestorLoop s ancestorHash stack seen fuel
      else if cur = ancestorHash then true
      else
        match alookup s.commits cur with
        | none => isAncestorLoop s ancestorHash stack (cur :: seen) fuel
        | some c =>
            isAncestorLoop s ancestorHash (c.parents.reverse ++ stack)
              (cur :: seen) fuel

/-- `isAncestor(ancestorHash, descendantHash)`. -/
def isAncestor (s : RepoState) (ancestorHash descendantHash : String) : Bool :=
  if ancestorHash = "" ∨ descendantHash = "" then false
  else if ancestorHash = descendantHash then true
  else isAncestorLoop s ancestorHash [descendantHash] [] (ancestorFuel s)

/-- First BFS pass of `findCommonAncestor`: distances from `a`. -/
def fcaPass1 (s : RepoState) :
    List (String × Nat) → List (String × Nat) → Nat → List (String × Nat)
  | _, dist, 0 => dist
  | [], dist, _ => dist
  | (hash, d) :: queue, dist, fuel + 1 =>
      if hash = "" ∨ (alookup dist hash).isSome then fcaPass1 s queue dist fuel
      else
        let dist1 := aset dist hash d
        match alookup s.commits hash with
        | none => fcaPass1 s queue dist1 fuel
        | some c =>
            fcaPass1 s (queue ++ c.parents.map fun p => (p, d + 1)) dist1 fuel

/-- Second BFS pass of `findCommonAncestor`: walk from `b`, keep the
meeting point with the least summed distance (`none` models
`best = null, bestD = Infinity`). -/
def fcaPass2 (s : RepoState) (dist : List (String × Nat)) :
    List (String × Nat) → List String → Option (String × Nat) → Nat →
    Option String
  | _, _, best, 0 => best.map Prod.fst
  | [], _, best, _ => best.map Prod.fst
  | (hash, d) :: queue, seen, best, fuel + 1 =>
      if hash = "" ∨ hash ∈ seen then fcaPass2 s dist queue seen best fuel
      else
        let best1 :=
          match alookup dist hash with
          | some dd =>
              match best with
              | none => some (hash, dd + d)
              | some (bh, bd) =>
                  if dd + d < bd then some (hash, dd + d) else some (bh, bd)
          | none => best
        match alookup s.commits hash with
        | none => fcaPass2 s dist queue (hash :: seen) best1 fuel
        | some c =>
            fcaPass2 s dist (queue ++ c.parents.map fun p => (p, d + 1))
              (hash :: seen) best1 fuel

/-- `findCommonAncestor(a, b)`. -/
def findCommonAncestor (s : RepoState) (a b : String) : Option String :=
  if a = "" ∨ b = "" then none
  else if a = b then some a
  else
    let dist := fcaPass1 s [(a, 0)] [] (ancestorFuel s)
    fcaPass2 s dist [(b, 0)] [] none (ancestorFuel s)

/-- The conflict marker buffer written into the working tree. -/
def conflictBuffer (oursText theirsText theirBranch : String) : String :=
  "<<<<<<< HEAD\n" ++ oursText ++ "\n=======\n" ++ theirsText ++
    "\n>>>>>>> " ++ theirBranch ++ "\n"

/-- One iteration of the three-way merge loop in `gitMerge`: the merged
map and conflict list after handling `path`. -/
def mergeStep (base oursSnap theirsSnap : List (String × String))
    (theirBranch : String) (acc : List (String × String) × List String)
    (path : String) : List (String × String) × List String :=
  let b := alookup base path
  let o := alookup oursSnap path
  let t := alookup theirsSnap path
  if o = t then
    (match o with
     | none => adel acc.1 path
     | some v => aset acc.1 path v, acc.2)
  else if o = b then
    (match t with
     | none => adel acc.1 path
     | some v => aset acc.1 path v, acc.2)
  else if t = b then
    (match o with
     | none => adel acc.1 path
     | some v => aset acc.1 path v, acc.2)
  else
    (aset acc.1 path (conflictBuffer (o.getD "") (t.getD "") theirBranch),
     acc.2 ++ [path])

/-- The diverged-heads tail of `gitMerge` (true three-way merge). -/
def mergeDiverged (s : RepoState) (theirBranch ours theirs : String)
    (hash : String) (time : Nat) : CmdResult × RepoState :=
  let baseHash := findCommonAncestor s ours theirs
  let base := getSnapshot s baseHash
  let oursSnap := getSnapshot s (some ours)
  let theirsSnap := getSnapshot s (some theirs)
  let paths := jsDedup (akeys base ++ akeys oursSnap ++ akeys theirsSnap)
  let folded :=
    paths.foldl (mergeStep base oursSnap theirsSnap theirBranch) (oursSnap, [])
  let merged := folded.1
  let conflicts := folded.2
  let s1 := { s with workingFiles := merged, stagedFiles := [] }
  match conflicts with
  | c0 :: _ =>
      let s2 := { s1 with
        mergeState := some ⟨theirBranch, theirs, conflicts⟩,
        lastEvent :=
          some (Event.gitMergeConflict theirBranch (conflicts.map relPath)) }
      let out := ["Auto-merging (simulated)…",
          "CONFLICT (content): Merge conflict in " ++ relPath c0] ++
        (if conflicts.length > 1 then
           ["(" ++ toString (conflicts.length - 1) ++ " more conflict(s))"]
         else []) ++
        ["Fix conflicts, then run \"git add <file>\" and \"git commit\"."]
      (⟨false, 1, out, []⟩, s2)
  | [] =>
      let s2 := { s1 with mergeState := some ⟨theirBranch, theirs, []⟩ }
      let staged1 :=
        s2.workingFiles.foldl (fun st e => aset st e.1 (some e.2)) s2.stagedFiles
      let staged2 := (akeys oursSnap).foldl
        (fun st p =>
          if (alookup s2.workingFiles p).isSome then st else aset st p none)
        staged1
      let s3 := { s2 with stagedFiles := staged2 }
      let res := gitCommit s3 ["-m", "Merge branch '" ++ theirBranch ++ "'"]
        hash time
      (⟨res.1.ok, res.1.exitCode,
        "Merge made by Git Tutor (simulated)." :: res.1.stdout, res.1.stderr⟩,
       { res.2 with lastEvent := some (Event.gitMergeEv theirBranch) })

/-- `gitMerge(args)`. -/
def gitMerge (s : RepoState) (args : List String) (hash : String)
    (time : Nat) : CmdResult × RepoState :=
  if s.initialized = false then (notRepoResult, s)
  else
    let status := getStatus s
    if status.isDirty then
      (⟨false, 1, [],
        ["error: cannot merge because you have local changes (simulated).",
         "Hint: commit or stash first."]⟩, s)
    else
      let theirBranch := args.headD ""
      if theirBranch = "" then
        (⟨false, 1, [], ["fatal: branch name required"]⟩, s)
      else
        match alookup s.branches theirBranch with
        | none =>
            (⟨false, 1, [],
              ["fatal: branch '" ++ theirBranch ++ "' not found"]⟩, s)
        | some theirsOpt =>
            match jsOrNull theirsOpt with
            | none => (⟨true, 0, ["Already up to date."], []⟩, s)
            | some theirs =>
                match jsOrNull s.head with
                | none =>
                    let s1 := s.setHead (some theirs)
                    let s2 := { s1 with
                      workingFiles := getHeadSnapshot s1,
                      lastEvent := some (Event.gitMergeFF theirBranch) }
                    (⟨true, 0, ["Fast-forward (simulated)."], []⟩, s2)
                | some ours =>
                    if isAncestor s ours theirs then
                      let s1 := s.setHead (some theirs)
                      let s2 := { s1 with
                        workingFiles := getHeadSnapshot s1,
                        lastEvent := some (Event.gitMergeFF theirBranch) }
                      (⟨true, 0, ["Fast-forward (simulated)."], []⟩, s2)
                    else if isAncestor s theirs ours then
                      (⟨true, 0, ["Already up to date."], []⟩, s)
                    else mergeDiverged s theirBranch ours theirs hash time

/-- A remote repository in the remote store (`RemoteStore.createEmptyRemote`
shape: no working tree, no index). -/
structure RemoteRepo where
  url : String
  commits : List (String × Commit)
  commitOrder : List String
  branches : List (String × Option String)
deriving DecidableEq

/-- The process-wide `RemoteStore` (url → remote repo).  The git methods
receive it through `ctx.remoteStore`, which the app controller always
supplies, so the `internal error: remote store missing` guard is vacuous
here and the store is a plain parameter. -/
structure RemoteStore where
  byUrl : List (String × RemoteRepo)
deriving DecidableEq

/-- `RemoteStore.createEmptyRemote(url)`. -/
def createEmptyRemote (url : String) : RemoteRepo :=
  ⟨url, [], [], [("main", none)]⟩

/-- `ensureRepo(url)`.  `none` models the `Error` thrown on a blank URL
(nothing in `SimulatedRepo` catches it, so the method aborts with the
repository unchanged). -/
def ensureRepo (store : RemoteStore) (url : String) :
    Option (RemoteRepo × RemoteStore) :=
  let normalized := jsTrim url
  if normalized = "" then none
  else
    match alookup store.byUrl normalized with
    | some repo => some (repo, store)
    | none =>
        let repo := createEmptyRemote normalized
        some (repo, ⟨aset store.byUrl normalized repo⟩)

/-- `getRepo(url)`. -/
def getRepo (store : RemoteStore) (url : String) : Option RemoteRepo :=
  alookup store.byUrl (jsTrim url)

/-- The observable effect of the exception `ensureRepo` throws on a
blank URL: the command aborts, state untouched. -/
def thrownRemoteUrlResult : CmdResult :=
  ⟨false, 1, [], ["Uncaught Error: Remote URL is required."]⟩

/-- `gitRemote(args, ctx)`. -/
def gitRemote (s : RepoState) (store : RemoteStore) (args : List String) :
    CmdResult × RepoState × RemoteStore :=
  if s.initialized = false then (notRepoResult, s, store)
  else
    let sub := args.headD ""
    if sub = "" then
      (⟨true, 0, jsSort (akeys s.remotes), []⟩, s, store)
    else if sub = "-v" then
      let out := (jsSort (akeys s.remotes)).foldl
        (fun acc name =>
          let url := (alookup s.remotes name).getD ""
          acc ++ [name ++ "\t" ++ url ++ " (fetch)",
                  name ++ "\t" ++ url ++ " (push)"]) []
      (⟨true, 0, out, []⟩, s, store)
    else if sub = "add" then
      let name := args.getD 1 ""
      let url := args.getD 2 ""
      if name = "" ∨ url = "" then
        (⟨false, 1, [], ["usage: git remote add <name> <url>"]⟩, s, store)
      else if (alookup s.remotes name).isSome then
        (⟨false, 1, [], ["fatal: remote " ++ name ++ " already exists"]⟩, s,
         store)
      else
        match ensureRepo store url with
        | none => (thrownRemoteUrlResult, s, store)
        | some (_, store1) =>
            (⟨true, 0, [], []⟩,
             { s with
               remotes := aset s.remotes name url,
               lastEvent := some (Event.gitRemoteAdd name url) }, store1)
    else
      (⟨false, 1, [],
        ["usage: git remote [-v] | git remote add <name> <url>"]⟩, s, store)

/-- Flags stripped from the `gitPush` argument list. -/
def pushCleanedArgs (args : List String) : List String :=
  args.filter fun a => ¬(a = "-u" ∨ a = "--set-upstream")

/-- `cleaned[0] || upstream?.remote || "origin"` in `gitPush`. -/
def pushRemoteName (s : RepoState) (args : List String) : String :=
  let upstreamRemote :=
    match alookup s.upstreams s.currentBranch with
    | some u => u.remote
    | none => ""
  jsOrStr ((pushCleanedArgs args).headD "") (jsOrStr upstreamRemote "origin")

/-- `cleaned[1] || this.currentBranch` in `gitPush`. -/
def pushBranchName (s : RepoState) (args : List String) : String :=
  jsOrStr ((pushCleanedArgs args).getD 1 "") s.currentBranch

/-- One step of the `gitPush` commit-copy loop:
`if (!remoteRepo.commits[hash]) remoteRepo.commits[hash] = deepCopy(this.commits[hash])`.
When the hash has no local commit object (unreachable for states the
simulator builds) the step skips; the JS `deepCopy(undefined)` would
throw there. -/
def pushCopyStep (localCommits : List (String × Commit))
    (cm : List (String × Commit)) (h : String) : List (String × Commit) :=
  if (alookup cm h).isSome then cm
  else
    match alookup localCommits h with
    | some c => aset cm h c
    | none => cm

/-- `gitPush(args, ctx)`. -/
def gitPush (s : RepoState) (store : RemoteStore) (args : List String) :
    CmdResult × RepoState × RemoteStore :=
  if s.initialized = false then (notRepoResult, s, store)
  else
    let setUpstream := "-u" ∈ args ∨ "--set-upstream" ∈ args
    let remoteName := pushRemoteName s args
    let branchName := pushBranchName s args
    match alookup s.remotes remoteName with
    | none =>
        (⟨false, 1, [],
          ["fatal: '" ++ remoteName ++ "' does not appear to be a git remote"]⟩,
         s, store)
    | some url =>
        match ensureRepo store url with
        | none => (thrownRemoteUrlResult, s, store)
        | some (remoteRepo, store1) =>
            match jsOrNull (alookup s.branches branchName).join with
            | none =>
                (⟨false, 1, [],
                  ["error: src refspec " ++ branchName ++
                    " does not match any"]⟩, s, store1)
            | some localHead =>
                let commits1 :=
                  s.commitOrder.foldl (pushCopyStep s.commits)
                    remoteRepo.commits
                let order1 := s.commitOrder.foldl
                  (fun ord h =>
                    if h ∈ remoteRepo.commitOrder then ord else ord ++ [h])
                  remoteRepo.commitOrder
                let old := jsOrNull (alookup remoteRepo.branches branchName).join
                let remote1 : RemoteRepo := { remoteRepo with
                  commits := commits1, commitOrder := order1,
                  branches := aset remoteRepo.branches branchName
                    (some localHead) }
                let store2 : RemoteStore := ⟨aset store1.byUrl (jsTrim url) remote1⟩
                let upstreams1 :=
                  if setUpstream then
                    aset s.upstreams branchName ⟨remoteName, branchName⟩
                  else s.upstreams
                let s1 := { s with
                  upstreams := upstreams1,
                  lastEvent := some (Event.gitPushEv remoteName branchName) }
                let out := ["To " ++ url,
                  "   " ++ jsOrStr (shortHash old) "0000000" ++ ".." ++
                    shortHash (some localHead) ++ "  " ++ branchName ++
                    " -> " ++ branchName] ++
                  (if setUpstream then
                     ["Branch '" ++ branchName ++ "' set up to track '" ++
                       remoteName ++ "/" ++ branchName ++ "'. (simulated)"]
                   else [])
                (⟨true, 0, out, []⟩, s1, store2)

/-- `gitPull(args, ctx)`. -/
def gitPull (s : RepoState) (store : RemoteStore) (args : List String)
    (hash : String) (time : Nat) : CmdResult × RepoState × RemoteStore :=
  if s.initialized = false then (notRepoResult, s, store)
  else
    let status := getStatus s
    if status.isDirty then
      (⟨false, 1, [],
        ["error: cannot pull with local changes (simulated).",
         "Hint: commit or stash first."]⟩, s, store)
    else
      let upstream := alookup s.upstreams s.currentBranch
      let remoteName := jsOrStr (args.headD "")
        (jsOrStr (match upstream with | some u => u.remote | none => "")
          "origin")
      let branchName := jsOrStr (args.getD 1 "")
        (jsOrStr (match upstream with | some u => u.branch | none => "")
          s.currentBranch)
      match alookup s.remotes remoteName with
      | none =>
          (⟨false, 1, [], ["fatal: remote '" ++ remoteName ++ "' not found"]⟩,
           s, store)
      | some url =>
          match getRepo store url with
          | none =>
              (⟨false, 1, [], ["fatal: remote URL not found: " ++ url]⟩, s,
               store)
          | some remoteRepo =>
              match jsOrNull (alookup remoteRepo.branches branchName).join with
              | none =>
                  (⟨false, 1, [],
                    ["fatal: remote branch '" ++ branchName ++ "' not found"]⟩,
                   s, store)
              | some remoteHead =>
                  let imported := remoteRepo.commitOrder.foldl
                    (fun st h =>
                      if (alookup st.commits h).isSome then st
                      else
                        match alookup remoteRepo.commits h with
                        | some c =>
                            { st with
                              commits := aset st.commits h c,
                              commitOrder := st.commitOrder ++ [h] }
                        | none => st) s
                  let theirs := remoteHead
                  let ffState :=
                    let s1 := imported.setHead (some theirs)
                    { s1 with
                      workingFiles := getHeadSnapshot s1,
                      lastEvent :=
                        some (Event.gitPullFF remoteName branchName) }
                  match jsOrNull imported.head with
                  | none =>
                      (⟨true, 0, ["Fast-forward (simulated)."], []⟩, ffState,
                       store)
                  | some ours =>
                      if isAncestor imported ours theirs then
                        (⟨true, 0, ["Fast-forward (simulated)."], []⟩, ffState,
                         store)
                      else if isAncestor imported theirs ours then
                        (⟨true, 0, ["Already up to date."], []⟩, imported,
                         store)
                      else
                        let label := remoteName ++ "/" ++ branchName
                        let tmpName := "__remote_" ++ label
                        let sTmp := { imported with
                          branches :=
                            aset imported.branches tmpName (some theirs) }
                        let res := gitMerge sTmp [tmpName] hash time
                        let sAfter := { res.2 with
                          branches := adel res.2.branches tmpName,
                          lastEvent :=
                            some (Event.gitPullMerge remoteName branchName) }
                        let line :=
                          if res.1.ok then
                            "Merge from " ++ label ++ " (simulated)."
                          else
                            "Merge from " ++ label ++
                              " requires conflict resolution (simulated)."
                        (⟨res.1.ok, res.1.exitCode, line :: res.1.stdout,
                          res.1.stderr⟩, sAfter, store)

/-- `gitClone(args, ctx)`.  Note: no `ensureInitialized` guard — clone
works on (and resets) an uninitialized repository. -/
def gitClone (s : RepoState) (store : RemoteStore) (args : List String) :
    CmdResult × RepoState × RemoteStore :=
  let url := args.headD ""
  if url = "" then (⟨false, 1, [], ["usage: git clone <url>"]⟩, s, store)
  else
    match ensureRepo store url with
    | none => (thrownRemoteUrlResult, s, store)
    | some (remoteRepo, store1) =>
        let s0 := resetState
        let s1 := { s0 with
          initialized := true,
          remotes := aset s0.remotes "origin" url,
          upstreams := aset s0.upstreams "main" ⟨"origin", "main"⟩,
          commits := remoteRepo.commits,
          commitOrder := remoteRepo.commitOrder,
          branches := remoteRepo.branches,
          currentBranch := "main",
          branchMeta := aset s0.branchMeta "main" ⟨0, "#4cc9f0"⟩,
          nextLane := 1 }
        let s2 := { s1 with workingFiles := getHeadSnapshot s1 }
        let s3 := { s2 with
          directories := (akeys s2.workingFiles).foldl
            (fun ds p => aset ds (dirname p) true) s2.directories,
          lastEvent := some (Event.gitCloneEv url) }
        (⟨true, 0,
          ["Cloning into '" ++ basename url ++ "'… (simulated)", "done."],
          []⟩, s3, store1)

/-- `gitStash(args)`; `time` models `nowMs()`. -/
def gitStash (s : RepoState) (args : List String) (time : Nat) :
    CmdResult × RepoState :=
  if s.initialized = false then (notRepoResult, s)
  else if args.headD "" = "pop" then
    match s.stash with
    | [] => (⟨false, 1, [], ["No stash entries found."]⟩, s)
    | entry :: rest =>
        (⟨true, 0, ["Applied stash (simulated)."], []⟩,
         { s with
           workingFiles := entry.workingFiles,
           stagedFiles := entry.stagedFiles, stash := rest,
           mergeState := none, lastEvent := some Event.gitStashPop })
  else
    let status := getStatus s
    if status.isDirty = false then
      (⟨false, 1, [], ["No local changes to save."]⟩, s)
    else
      let message := "WIP on " ++ s.currentBranch ++ ": " ++
        shortHash s.head ++ " (simulated)"
      let entry : StashEntry := ⟨message, s.workingFiles, s.stagedFiles, time⟩
      (⟨true, 0, ["Saved working directory and index state: " ++ message],
        []⟩,
       { s with
         stash := entry :: s.stash, workingFiles := getHeadSnapshot s,
         stagedFiles := [], mergeState := none,
         lastEvent := some Event.gitStashEv })

/-- `resolveHashPrefix(prefix)`: the unique commit hash with the given
case-insensitive prefix, else `null`. -/
def resolveHashPrefix (s : RepoState) (pfx : String) : Option String :=
  let p := jsToLower pfx
  if p = "" then none
  else
    let hits := (akeys s.commits).filter fun h => strStartsWith (jsToLower h) p
    match hits with
    | [m] => some m
    | _ => none

/-- `gitReset(args)`. -/
def gitReset (s : RepoState) (args : List String) : CmdResult × RepoState :=
  if s.initialized = false then (notRepoResult, s)
  else if args.headD "" ≠ "--hard" then
    (⟨false, 1, [], ["Only '--hard' is supported in this tutorial."]⟩, s)
  else
    let target := jsOrStr (args.getD 1 "") "HEAD"
    let resolved : Option (Option String) :=
      if target = "HEAD" then some s.head
      else if target = "HEAD~1" then
        some
          (match s.head with
           | none => none
           | some h =>
               match alookup s.commits h with
               | none => none
               | some c => jsOrNull c.parents.head?)
      else
        match resolveHashPrefix s target with
        | none => none
        | some full => some (some full)
    match resolved with
    | none =>
        (⟨false, 1, [], ["fatal: ambiguous argument '" ++ target ++ "'"]⟩, s)
    | some targetHash =>
        let s1 := s.setHead targetHash
        let s2 := { s1 with
          workingFiles := getHeadSnapshot s1, stagedFiles := [],
          mergeState := none, lastEvent := some (Event.gitResetHard target) }
        (⟨true, 0,
          ["HEAD is now at " ++ shortHash targetHash ++ " (simulated)."],
          []⟩, s2)

/-- `gitRevert(args)`. -/
def gitRevert (s : RepoState) (args : List String) (hash : String)
    (time : Nat) : CmdResult × RepoState :=
  if s.initialized = false then (notRepoResult, s)
  else
    let hashArg := args.headD ""
    if hashArg = "" then
      (⟨false, 1, [], ["usage: git revert <hash>"]⟩, s)
    else
      let fullOpt : Option String :=
        match resolveHashPrefix s hashArg with
        | some f => some f
        | none =>
            if (alookup s.commits hashArg).isSome then some hashArg else none
      match fullOpt with
      | none => (⟨false, 1, [], ["fatal: bad revision '" ++ hashArg ++ "'"]⟩, s)
      | some full =>
          match alookup s.commits full with
          | none =>
              -- unreachable: `full` is always a key of `commits`
              (⟨false, 1, [], ["fatal: bad revision '" ++ hashArg ++ "'"]⟩, s)
          | some commit =>
              let parentHash := jsOrNull commit.parents.head?
              let parentFiles := getSnapshot s parentHash
              let commitFiles := commit.files
              let paths := jsDedup (akeys parentFiles ++ akeys commitFiles)
              let headFiles := paths.foldl
                (fun hf path =>
                  let before := alookup parentFiles path
                  let after := alookup commitFiles path
                  if before = after then hf
                  else
                    match before with
                    | none => adel hf path
                    | some b => aset hf path b)
                (getHeadSnapshot s)
              let staged1 := headFiles.foldl
                (fun st e => aset st e.1 (some e.2))
                ([] : List (String × Option String))
              let staged2 := (akeys (getHeadSnapshot s)).foldl
                (fun st p =>
                  if (alookup headFiles p).isSome then st else aset st p none)
                staged1
              let s1 := { s with stagedFiles := staged2 }
              let msg := "Revert \"" ++ commit.message ++ "\""
              let res := gitCommit s1 ["-m", msg] hash time
              let s2 := { res.2 with
                lastEvent := some (Event.gitRevertEv full) }
              if res.1.ok then
                (⟨res.1.ok, res.1.exitCode,
                  ("Reverted " ++ shortHash (some full) ++ " (simulated).") ::
                    res.1.stdout, res.1.stderr⟩, s2)
              else
                (⟨res.1.ok, res.1.exitCode, res.1.stdout,
                  "revert failed (simulated)" :: res.1.stderr⟩, s2)

/-- The fields `SimulatedRepo.serialize()` writes (a `deepCopy`, i.e. a
value copy, of exactly these fields; `lastEvent` is not serialized). -/
structure Serialized where
  initialized : Bool
  cwd : String
  directories : List (String × Bool)
  workingFiles : List (String × String)
  stagedFiles : List (String × Option String)
  commits : List (String × Commit)
  commitOrder : List String
  branches : List (String × Option String)
  currentBranch : String
  branchMeta : List (String × BranchMeta)
  nextLane : Nat
  mergeState : Option MergeState
  remotes : List (String × String)
  upstreams : List (String × Upstream)
  stash : List StashEntry
deriving DecidableEq

/-- `serialize()`. -/
def serialize (s : RepoState) : Serialized :=
  ⟨s.initialized, s.cwd, s.directories, s.workingFiles, s.stagedFiles,
   s.commits, s.commitOrder, s.branches, s.currentBranch, s.branchMeta,
   s.nextLane, s.mergeState, s.remotes, s.upstreams, s.stash⟩

/-- `SimulatedRepo.deserialize(obj)` restricted to well-typed input (the
round-trip case): field assignments onto a fresh repo, then the
source's four fix-ups.  The last one resets `currentBranch` to the
first branch key whenever `branches[currentBranch]` is falsy — which a
`null` head (unborn branch) is. -/
def deserialize (obj : Serialized) : RepoState :=
  let repo := { resetState with
    initialized := obj.initialized, cwd := obj.cwd,
    directories := obj.directories, workingFiles := obj.workingFiles,
    stagedFiles := obj.stagedFiles, commits := obj.commits,
    commitOrder := obj.commitOrder, branches := obj.branches,
    currentBranch := obj.currentBranch, branchMeta := obj.branchMeta,
    nextLane := obj.nextLane, mergeState := obj.mergeState,
    remotes := obj.remotes, upstreams := obj.upstreams, stash := obj.stash }
  let branches1 := fixupMainBranch repo.branches
  let meta1 :=
    if (alookup repo.branchMeta "main").isSome then repo.branchMeta
    else aset repo.branchMeta "main" ⟨0, "#4cc9f0"⟩
  let dirs1 :=
    match alookup repo.directories "/" with
    | some true => repo.directories
    | _ => aset repo.directories "/" true
  let current1 :=
    match alookup branches1 repo.currentBranch with
    | some (some h) => if h = "" then jsOrStr ((akeys branches1).headD "") "main"
        else repo.currentBranch
    | _ => jsOrStr ((akeys branches1).headD "") "main"
  { repo with
    branches := branches1, branchMeta := meta1, directories := dirs1,
    currentBranch := current1 }

/-! ### Association-list and sort lemmas -/

theorem alookup_aset_self {α : Type} (l : List (String × α)) (k : String)
    (v : α) : alookup (aset l k v) k = some v := by
  induction l with
  | nil => simp [aset, alookup]
  | cons e rest ih =>
      obtain ⟨k0, v0⟩ := e
      by_cases h : k0 = k
      · simp [aset, alookup, h]
      · simp [aset, alookup, h, ih]

theorem alookup_aset_ne {α : Type} (l : List (String × α)) (k q : String)
    (v : α) (h : q ≠ k) : alookup (aset l k v) q = alookup l q := by
  induction l with
  | nil => simp [aset, alookup, Ne.symm h]
  | cons e rest ih =>
      obtain ⟨k0, v0⟩ := e
      by_cases h0 : k0 = k
      · subst h0
        simp [aset, alookup, Ne.symm h]
      · simp [aset, alookup, h0, ih]

theorem aset_eq_self {α : Type} (l : List (String × α)) (k : String) (v : α)
    (h : alookup l k = some v) : aset l k v = l := by
  induction l with
  | nil => simp [alookup] at h
  | cons e rest ih =>
      obtain ⟨k0, v0⟩ := e
      by_cases h0 : k0 = k
      · subst h0
        simp [alookup] at h
        simp [aset, h]
      · simp [alookup, h0] at h
        simp [aset, h0, ih h]

theorem alookup_mem {α : Type} (l : List (String × α)) (k : String) (v : α)
    (h : alookup l k = some v) : (k, v) ∈ l := by
  induction l with
  | nil => simp [alookup] at h
  | cons e rest ih =>
      obtain ⟨k0, v0⟩ := e
      by_cases h0 : k0 = k
      · subst h0
        simp [alookup] at h
        simp [h]
      · simp [alookup, h0] at h
        simp [ih h]

theorem alookup_isSome_iff {α : Type} (l : List (String × α)) (k : String) :
    (alookup l k).isSome = true ↔ k ∈ akeys l := by
  induction l with
  | nil => simp [alookup, akeys]
  | cons e rest ih =>
      obtain ⟨k0, v0⟩ := e
      by_cases h0 : k0 = k
      · simp [alookup, akeys, h0]
      · have hne : ¬k = k0 := Ne.symm h0
        simp [alookup, akeys, h0, ih, hne]

theorem mem_jsDedup (a : String) (l : List String) :
    a ∈ jsDedup l ↔ a ∈ l := by
  induction l with
  | nil => simp [jsDedup]
  | cons x rest ih =>
      by_cases h : a = x
      · simp [jsDedup, h]
      · simp [jsDedup, List.mem_filter, h, ih]

theorem mem_insertSorted (x a : String) (l : List String) :
    a ∈ insertSorted x l ↔ a = x ∨ a ∈ l := by
  induction l with
  | nil => simp [insertSorted]
  | cons y rest ih =>
      simp only [insertSorted]
      split
      · simp
      · simp [ih]
        tauto

theorem mem_jsSort (a : String) (l : List String) : a ∈ jsSort l ↔ a ∈ l := by
  suffices h : ∀ acc, a ∈ l.foldl (fun acc x => insertSorted x acc) acc ↔
      a ∈ acc ∨ a ∈ l by
    simpa [jsSort] using h []
  induction l with
  | nil => simp
  | cons y rest ih =>
      intro acc
      simp only [List.foldl_cons, ih, mem_insertSorted, List.mem_cons]
      tauto

theorem mem_listAllPaths (s : RepoState) (p : String) :
    p ∈ listAllPaths s ↔
      p ∈ akeys s.workingFiles ∨ p ∈ akeys (getHeadSnapshot s) ∨
      p ∈ akeys s.stagedFiles := by
  simp [listAllPaths, mem_jsSort, mem_jsDedup]

/-! ### C2 — git operations on an uninitialized repository -/

/-- C2 (amended): every git operation other than `init` and `clone`,
invoked with `initialized = false`, fails with exit code 1 and the
"not a git repository" error (`notRepoResult` is exactly that result)
and leaves the repository — and for remote commands the remote store —
unchanged. -/
theorem uninitialized_git_ops_fail (s : RepoState)
    (h : s.initialized = false) :
    notRepoResult.exitCode = 1 ∧ notRepoResult.ok = false ∧
    gitStatus s = (notRepoResult, s) ∧
    (∀ args, gitAdd s args = (notRepoResult, s)) ∧
    (∀ args hash time, gitCommit s args hash time = (notRepoResult, s)) ∧
    (∀ locale args, gitLog s locale args = (notRepoResult, s)) ∧
    (∀ args, gitBranch s args = (notRepoResult, s)) ∧
    (∀ args, gitCheckout s args = (notRepoResult, s)) ∧
    (∀ args hash time, gitMerge s args hash time = (notRepoResult, s)) ∧
    (∀ store args, gitRemote s store args = (notRepoResult, s, store)) ∧
    (∀ store args, gitPush s store args = (notRepoResult, s, store)) ∧
    (∀ store args hash time,
      gitPull s store args hash time = (notRepoResult, s, store)) ∧
    (∀ args time, gitStash s args time = (notRepoResult, s)) ∧
    (∀ args, gitReset s args = (notRepoResult, s)) ∧
    (∀ args hash time, gitRevert s args hash time = (notRepoResult, s)) := by
  refine ⟨rfl, rfl, ?_, ?_, ?_, ?_, ?_, ?_, ?_, ?_, ?_, ?_, ?_, ?_, ?_⟩
  · simp [gitStatus, h]
  · intro args; simp [gitAdd, h]
  · intro args hash time; simp [gitCommit, h]
  · intro locale args; simp [gitLog, h]
  · intro args; simp [gitBranch, h]
  · intro args; simp [gitCheckout, h]
  · intro args hash time; simp [gitMerge, h]
  · intro store args; simp [gitRemote, h]
  · intro store args; simp [gitPush, h]
  · intro store args hash time; simp [gitPull, h]
  · intro args time; simp [gitStash, h]
  · intro args; simp [gitReset, h]
  · intro args hash time; simp [gitRevert, h]

/-- Witness for `uninitialized_git_ops_fail` at the pristine state. -/
theorem uninitialized_git_ops_fail_witness :
    resetState.initialized = false ∧
    gitStatus resetState = (notRepoResult, resetState) := by
  refine ⟨rfl, ?_⟩
  exact (uninitialized_git_ops_fail resetState rfl).2.2.1

/-- Counterexample to C2 as stated: `git clone` is a git operation other
than `init`, yet on an uninitialized repository it succeeds with exit
code 0 and changes the repository (it initializes it). -/
theorem clone_succeeds_uninitialized :
    resetState.initialized = false ∧
    (gitClone resetState ⟨[]⟩
      ["https://example.com/acme/widgets.git"]).1.ok = true ∧
    (gitClone resetState ⟨[]⟩
      ["https://example.com/acme/widgets.git"]).1.exitCode = 0 ∧
    (gitClone resetState ⟨[]⟩
      ["https://example.com/acme/widgets.git"]).2.1.initialized = true := by
  decide

/-! ### C9 — `git stash pop` -/

/-- C9: `git stash pop` fails (exit 1, state untouched) exactly when the
stash is empty; otherwise it unconditionally installs the newest stash
entry as working tree and index — no dirtiness check — removes the
entry, and clears `mergeState`. -/
theorem stash_pop_spec (s : RepoState) (time : Nat)
    (h : s.initialized = true) :
    (s.stash = [] →
      gitStash s ["pop"] time =
        (⟨false, 1, [], ["No stash entries found."]⟩, s)) ∧
    (∀ e rest, s.stash = e :: rest →
      gitStash s ["pop"] time =
        (⟨true, 0, ["Applied stash (simulated)."], []⟩,
         { s with
           workingFiles := e.workingFiles, stagedFiles := e.stagedFiles,
           stash := rest, mergeState := none,
           lastEvent := some Event.gitStashPop })) := by
  constructor
  · intro hs
    simp [gitStash, h, hs]
  · intro e rest hs
    simp [gitStash, h, hs]

/-- Witness for `stash_pop_spec`: popping a one-entry stash restores its
working tree and index and empties the stash. -/
theorem stash_pop_spec_witness :
    gitStash
      { resetState with
        initialized := true,
        stash := [⟨"WIP", [("/n", "note")], [("/n", some "note")], 7⟩] }
      ["pop"] 3 =
    (⟨true, 0, ["Applied stash (simulated)."], []⟩,
     { resetState with
       initialized := true, workingFiles := [("/n", "note")],
       stagedFiles := [("/n", some "note")], stash := [],
       mergeState := none, lastEvent := some Event.gitStashPop }) := by
  exact (stash_pop_spec _ 3 rfl).2 ⟨"WIP", [("/n", "note")], [("/n", some "note")], 7⟩ [] rfl

/-! ### C10 — `git reset --hard HEAD~1` on a root commit -/

/-- C10: when the HEAD commit has no parents, `git reset --hard HEAD~1`
succeeds with exit 0, sets the current branch head to `null` (unborn),
empties the working tree and index, clears the merge state, and leaves
`commits` and `commitOrder` untouched. -/
theorem reset_hard_past_root (s : RepoState) (hHash : String) (c : Commit)
    (h : s.initialized = true) (hh : s.head = some hHash)
    (hc : alookup s.commits hHash = some c) (hp : c.parents = []) :
    (gitReset s ["--hard", "HEAD~1"]).1.ok = true ∧
    (gitReset s ["--hard", "HEAD~1"]).1.exitCode = 0 ∧
    alookup (gitReset s ["--hard", "HEAD~1"]).2.branches s.currentBranch =
      some none ∧
    (gitReset s ["--hard", "HEAD~1"]).2.workingFiles = [] ∧
    (gitReset s ["--hard", "HEAD~1"]).2.stagedFiles = [] ∧
    (gitReset s ["--hard", "HEAD~1"]).2.mergeState = none ∧
    (gitReset s ["--hard", "HEAD~1"]).2.commits = s.commits ∧
    (gitReset s ["--hard", "HEAD~1"]).2.commitOrder = s.commitOrder := by
  have hresolved :
      gitReset s ["--hard", "HEAD~1"] =
        (⟨true, 0, ["HEAD is now at — (simulated)."], []⟩,
         { s.setHead none with
           workingFiles := getHeadSnapshot (s.setHead none),
           stagedFiles := [], mergeState := none,
           lastEvent := some (Event.gitResetHard "HEAD~1") }) := by
    simp [gitReset, h, jsOrStr, hh, hc, hp, jsOrNull, shortHash]
  have hheadnone : (s.setHead none).head = none := by
    simp [RepoState.setHead, RepoState.head, alookup_aset_self]
  constructor
  · simp [hresolved]
  constructor
  · simp [hresolved]
  constructor
  · simp [hresolved, RepoState.setHead, alookup_aset_self]
  constructor
  · simp [hresolved, getHeadSnapshot, hheadnone, getSnapshot]
  constructor
  · simp [hresolved]
  constructor
  · simp [hresolved]
  constructor
  · simp [hresolved, RepoState.setHead]
  · simp [hresolved, RepoState.setHead]

/-- Witness for `reset_hard_past_root` on a one-commit repository. -/
theorem reset_hard_past_root_witness :
    alookup
      (gitReset
        { resetState with
          initialized := true,
          workingFiles := [("/R", "# X")],
          commits := [("abc123def456",
            ⟨"abc123def456", "a", [], 5, [("/R", "# X")], 0, "main"⟩)],
          commitOrder := ["abc123def456"],
          branches := [("main", some "abc123def456")] }
        ["--hard", "HEAD~1"]).2.branches "main" = some none ∧
    (gitReset
        { resetState with
          initialized := true,
          workingFiles := [("/R", "# X")],
          commits := [("abc123def456",
            ⟨"abc123def456", "a", [], 5, [("/R", "# X")], 0, "main"⟩)],
          commitOrder := ["abc123def456"],
          branches := [("main", some "abc123def456")] }
        ["--hard", "HEAD~1"]).2.commitOrder = ["abc123def456"] := by
  have := reset_hard_past_root
    { resetState with
      initialized := true,
      workingFiles := [("/R", "# X")],
      commits := [("abc123def456",
        ⟨"abc123def456", "a", [], 5, [("/R", "# X")], 0, "main"⟩)],
      commitOrder := ["abc123def456"],
      branches := [("main", some "abc123def456")] }
    "abc123def456" ⟨"abc123def456", "a", [], 5, [("/R", "# X")], 0, "main"⟩
    rfl (by decide) (by decide) rfl
  exact ⟨this.2.2.1, this.2.2.2.2.2.2.2⟩

/-! ### C1 — the untracked set of `git status` -/

/-- C1 (amended): outside a merge, the untracked set contains exactly
the paths present in the working tree and absent from the HEAD
snapshot — the index is not consulted, so the three status sets need
not be disjoint (a staged new file appears in both staged and
untracked). -/
theorem status_untracked_exact (s : RepoState) (p : String)
    (hms : s.mergeState = none) :
    (⟨p, "A"⟩ : StatusEntry) ∈ (getStatus s).untracked ↔
      ((alookup s.workingFiles p).isSome = true ∧
        alookup (getHeadSnapshot s) p = none) := by
  have huntracked : (getStatus s).untracked =
      (listAllPaths s).filterMap
        (fun q => untrackedEntryOf (getHeadSnapshot s) s.workingFiles q) := by
    simp [getStatus, hms]
  rw [huntracked]
  constructor
  · intro hmem
    rw [List.mem_filterMap] at hmem
    obtain ⟨q, hq, hfq⟩ := hmem
    unfold untrackedEntryOf at hfq
    split at hfq
    · next hcond =>
        rw [Option.some.injEq] at hfq
        cases hfq
        exact ⟨by simpa using hcond.2, hcond.1⟩
    · simp at hfq
  · rintro ⟨hw, hh⟩
    rw [List.mem_filterMap]
    refine ⟨p, ?_, ?_⟩
    · exact (mem_listAllPaths s p).2 (Or.inl ((alookup_isSome_iff _ _).1 hw))
    · simp [untrackedEntryOf, hh, hw]

/-- A reachable state with a staged new file: after `touch f; git add f`
the file sits in the index yet is still listed as untracked. -/
def stagedNewFileState : RepoState :=
  { resetState with
    initialized := true,
    workingFiles := [("/f", "x")],
    stagedFiles := [("/f", some "x")] }

/-- Counterexample to C1 as stated: `/f` is in the index (staged), yet
the untracked set contains it, and the staged and untracked sets
overlap instead of being disjoint. -/
theorem untracked_ignores_index_counterexample :
    (alookup stagedNewFileState.stagedFiles "/f").isSome = true ∧
    (getStatus stagedNewFileState).untracked = [⟨"/f", "A"⟩] ∧
    (getStatus stagedNewFileState).staged = [⟨"/f", "A"⟩] := by
  decide

/-- Witness for `status_untracked_exact`: in `stagedNewFileState` the
path `/f` satisfies both sides of the characterization. -/
theorem status_untracked_exact_witness :
    (⟨"/f", "A"⟩ : StatusEntry) ∈ (getStatus stagedNewFileState).untracked :=
  (status_untracked_exact stagedNewFileState "/f" rfl).2 (by decide)

/-! ### C3 — `git add` is not atomic on partial failure -/

/-- C3 (amended): a failing `git add` is not atomic: with one pathspec
matching the working tree and another matching nothing, the command
returns exit 1 yet the matching pathspec is (and stays) staged. -/
theorem add_partial_failure (s : RepoState) (a b w : String)
    (hinit : s.initialized = true)
    (hdot : ¬("." ∈ [a, b] ∨ "-A" ∈ [a, b] ∨ "--all" ∈ [a, b]))
    (ha : alookup s.workingFiles (joinPath s.cwd a) = some w)
    (hbw : alookup s.workingFiles (joinPath s.cwd b) = none)
    (hbh : alookup (getHeadSnapshot s) (joinPath s.cwd b) = none) :
    (gitAdd s [a, b]).1.ok = false ∧
    (gitAdd s [a, b]).1.exitCode = 1 ∧
    alookup (gitAdd s [a, b]).2.stagedFiles (joinPath s.cwd a) =
      some (some w) := by
  simp only [List.mem_cons, List.not_mem_nil, or_false, not_or] at hdot
  obtain ⟨⟨d1, d2⟩, ⟨d3, d4⟩, d5, d6⟩ := hdot
  cases hm : s.mergeState with
  | none =>
      refine ⟨?_, ?_, ?_⟩ <;>
        simp [gitAdd, hinit, d1, d2, d3, d4, d5, d6, ha, hbw, hbh, hm,
          alookup_aset_self]
  | some ms =>
      refine ⟨?_, ?_, ?_⟩ <;>
        simp [gitAdd, hinit, d1, d2, d3, d4, d5, d6, ha, hbw, hbh, hm,
          alookup_aset_self]

/-- A reachable partial-failure input for `git add`: `/a` exists in the
working tree, `b` matches nothing. -/
def addPartialState : RepoState :=
  { resetState with initialized := true, workingFiles := [("/a", "1")] }

/-- Counterexample to C3 as stated: this failing `git add a b` (exit 1)
stages `/a` instead of leaving the index untouched. -/
theorem add_not_atomic_counterexample :
    (gitAdd addPartialState ["a", "b"]).1.ok = false ∧
    (gitAdd addPartialState ["a", "b"]).1.exitCode = 1 ∧
    (gitAdd addPartialState ["a", "b"]).2.stagedFiles =
      [("/a", some "1")] := by
  decide

/-- Witness for `add_partial_failure` at `addPartialState`. -/
theorem add_partial_failure_witness :
    (gitAdd addPartialState ["a", "b"]).1.exitCode = 1 ∧
    alookup (gitAdd addPartialState ["a", "b"]).2.stagedFiles
      (joinPath addPartialState.cwd "a") = some (some "1") := by
  have h := add_partial_failure addPartialState "a" "b" "1" rfl
    (by decide) (by decide) (by decide) (by decide)
  exact ⟨h.2.1, h.2.2⟩

/-! ### C4 — serialize / deserialize round trip -/

theorem fixupMainBranch_eq_self (branches : List (String × Option String))
    (h : (alookup branches "main").isSome = true) :
    fixupMainBranch branches = branches := by
  unfold fixupMainBranch
  cases hm : alookup branches "main" with
  | none => rw [hm] at h; simp at h
  | some v =>
      cases v with
      | none => exact aset_eq_self _ _ _ hm
      | some hh =>
          by_cases hhe : hh = ""
          · subst hhe
            simp [aset_eq_self _ _ _ hm]
          · simp [hhe]

/-- C4 (amended), strong form: under the invariants that reachable
states maintain (`main` is a branch key, `branchMeta.main` exists, the
root directory is recorded) and with a current branch whose head is
non-null, `deserialize (serialize s)` is `s` itself up to the
unserialized `lastEvent`. -/
theorem deserialize_serialize (s : RepoState)
    (hmain : (alookup s.branches "main").isSome = true)
    (hmeta : (alookup s.branchMeta "main").isSome = true)
    (hdir : alookup s.directories "/" = some true)
    (hh : String) (hcb : alookup s.branches s.currentBranch = some (some hh))
    (hne : hh ≠ "") :
    deserialize (serialize s) = { s with lastEvent := none } := by
  simp only [deserialize, serialize]
  rw [fixupMainBranch_eq_self s.branches hmain]
  rw [hdir, hcb]
  simp [hmeta, hne, resetState]

/-- C4 (amended), the round trip on serialized fields. -/
theorem serialize_roundtrip (s : RepoState)
    (hmain : (alookup s.branches "main").isSome = true)
    (hmeta : (alookup s.branchMeta "main").isSome = true)
    (hdir : alookup s.directories "/" = some true)
    (hh : String) (hcb : alookup s.branches s.currentBranch = some (some hh))
    (hne : hh ≠ "") :
    serialize (deserialize (serialize s)) = serialize s := by
  rw [deserialize_serialize s hmain hmeta hdir hh hcb hne]
  rfl

/-- The reachable state `git init; git branch dev; git checkout dev`:
the current branch `dev` is unborn (null head) and is not the first
branch key. -/
def unbornBranchState : RepoState :=
  (gitCheckout (gitBranch (gitInit resetState).2 ["dev"]).2 ["dev"]).2

/-- Counterexample to C4 as stated: the round trip moves `currentBranch`
from the unborn `dev` back to `main` (the first branch key), because
`deserialize` treats a null head as "current branch missing". -/
theorem roundtrip_unborn_branch_counterexample :
    unbornBranchState.currentBranch = "dev" ∧
    alookup unbornBranchState.branches "dev" = some none ∧
    (deserialize (serialize unbornBranchState)).currentBranch = "main" := by
  decide

/-- Witness for `serialize_roundtrip` on a state with a born branch. -/
def bornBranchState : RepoState :=
  { resetState with
    initialized := true,
    workingFiles := [("/R", "# X")],
    commits := [("abc123def456",
      ⟨"abc123def456", "a", [], 5, [("/R", "# X")], 0, "main"⟩)],
    commitOrder := ["abc123def456"],
    branches := [("main", some "abc123def456")] }

/-- Witness for `serialize_roundtrip` at `bornBranchState`. -/
theorem serialize_roundtrip_witness :
    serialize (deserialize (serialize bornBranchState)) =
      serialize bornBranchState :=
  serialize_roundtrip bornBranchState (by decide) (by decide) (by decide)
    "abc123def456" (by decide) (by decide)

/-! ### C5 — `git commit` -/

theorem status_staged_nil (s : RepoState) (h : s.stagedFiles = []) :
    (getStatus s).staged = [] := by
  simp [getStatus, h, stagedEntryOf, alookup]

theorem ensureBranchMeta_commits (s : RepoState) (b : String) :
    (ensureBranchMeta s b).commits = s.commits := by
  unfold ensureBranchMeta
  split <;> rfl

/-- C5: `git commit` fails with exit 1 when the index is empty or merge
conflicts remain; otherwise it succeeds (exit 0) and creates a commit
under the supplied hash whose snapshot is the HEAD snapshot overlaid
with the index (`none` entries delete), whose parents are the current
HEAD (if any) plus the merge state's `theirHash` (if concluding a
merge), and the resulting state has an empty index and no merge state.
The two falsy-string side conditions (`head ≠ some ""`,
`theirHash ≠ ""`) hold in every state the simulator builds, where
hashes are 12-character hex strings. -/
theorem commit_spec (s : RepoState) (args : List String) (hash : String)
    (time : Nat) (hinit : s.initialized = true)
    (hhead : s.head ≠ some "")
    (hms : ∀ ms, s.mergeState = some ms → ms.theirHash ≠ "") :
    (s.stagedFiles = [] →
      (gitCommit s args hash time).1.ok = false ∧
      (gitCommit s args hash time).1.exitCode = 1) ∧
    (∀ ms, s.mergeState = some ms → ms.conflicts ≠ [] →
      (gitCommit s args hash time).1.ok = false ∧
      (gitCommit s args hash time).1.exitCode = 1) ∧
    (s.stagedFiles ≠ [] →
      (s.mergeState = none ∨
        ∃ ms, s.mergeState = some ms ∧ ms.conflicts = []) →
      (gitCommit s args hash time).1.ok = true ∧
      (gitCommit s args hash time).1.exitCode = 0 ∧
      (∃ c : Commit,
        alookup (gitCommit s args hash time).2.commits hash = some c ∧
        c.files = applyStaged (getHeadSnapshot s) s.stagedFiles ∧
        c.parents =
          (match s.head with
           | some hh => [hh]
           | none => []) ++
          (match s.mergeState with
           | some ms => [ms.theirHash]
           | none => [])) ∧
      (gitCommit s args hash time).2.stagedFiles = [] ∧
      (gitCommit s args hash time).2.mergeState = none) := by
  refine ⟨?_, ?_, ?_⟩
  · intro hempty
    have hstaged := status_staged_nil s hempty
    simp [gitCommit, hinit, hstaged, hempty]
  · intro ms hm hc
    by_cases hst : (getStatus s).staged.length > 0 ∨ s.stagedFiles.length > 0
    · have hlen : ms.conflicts.length > 0 := List.length_pos.2 hc
      simp [gitCommit, hinit, hst, hm, hlen]
    · simp [gitCommit, hinit, hst]
  · intro hne hconf
    have hst : (getStatus s).staged.length > 0 ∨ s.stagedFiles.length > 0 :=
      Or.inr (List.length_pos.2 hne)
    have hcfalse : (match s.mergeState with
        | some ms => decide (ms.conflicts.length > 0)
        | none => false) = false := by
      rcases hconf with hc | ⟨ms, hm, hc⟩
      · simp [hc]
      · simp [hm, hc]
    have hparents :
        ((match jsOrNull s.head with
          | some h => [h]
          | none => []) ++
         (match s.mergeState with
          | some ms => if ms.theirHash = "" then [] else [ms.theirHash]
          | none => [])) =
        ((match s.head with
          | some hh => [hh]
          | none => []) ++
         (match s.mergeState with
          | some ms => [ms.theirHash]
          | none => [])) := by
      congr 1
      · cases hsh : s.head with
        | none => rfl
        | some hh =>
            have : hh ≠ "" := by
              intro he
              exact hhead (by rw [hsh, he])
            simp [jsOrNull, this]
      · cases hm : s.mergeState with
        | none => rfl
        | some ms => simp [hms ms hm]
    refine ⟨?_, ?_, ?_, ?_, ?_⟩
    · simp [gitCommit, hinit, hst, hcfalse]
    · simp [gitCommit, hinit, hst, hcfalse]
    · simp only [gitCommit, hinit, hst, hcfalse]
      simp only [Bool.true_eq_false, if_false, if_true]
      refine ⟨_, alookup_aset_self _ _ _, rfl, hparents⟩
    · simp [gitCommit, hinit, hst, hcfalse]
    · simp [gitCommit, hinit, hst, hcfalse]

/-- A state with one staged new file and no merge in progress. -/
def commitWitnessState : RepoState :=
  { resetState with initialized := true, stagedFiles := [("/R", some "# X")] }

/-- Witness for `commit_spec`: the first commit succeeds and clears the
index and merge state. -/
theorem commit_spec_witness :
    (gitCommit commitWitnessState ["-m", "a"] "h1" 5).1.exitCode = 0 ∧
    (gitCommit commitWitnessState ["-m", "a"] "h1" 5).2.stagedFiles = [] ∧
    (gitCommit commitWitnessState ["-m", "a"] "h1" 5).2.mergeState = none := by
  have h := commit_spec commitWitnessState ["-m", "a"] "h1" 5 rfl (by decide)
    (fun ms hm => Option.noConfusion hm)
  have h3 := h.2.2 (by decide) (Or.inl rfl)
  exact ⟨h3.2.1, h3.2.2.2.1, h3.2.2.2.2⟩

/-! ### C8 — `git push` copies reachable history -/

/-- Commit-graph reachability: `h` is reachable from `root` by
following parent edges through `commits`. -/
inductive ReachableFrom (commits : List (String × Commit)) :
    String → String → Prop
  | refl (h : String) : ReachableFrom commits h h
  | parent {root cur p : String} {c : Commit} :
      ReachableFrom commits root cur → alookup commits cur = some c →
      p ∈ c.parents → ReachableFrom commits root p

theorem pushCopyStep_mono (lc cm : List (String × Commit)) (h x : String)
    (hx : (alookup cm x).isSome = true) :
    (alookup (pushCopyStep lc cm h) x).isSome = true := by
  by_cases hif : (alookup cm h).isSome = true
  · simpa [pushCopyStep, hif] using hx
  · cases hl : alookup lc h with
    | none => simpa [pushCopyStep, hif, hl] using hx
    | some c =>
        by_cases hxh : x = h
        · subst hxh
          simp [pushCopyStep, hif, hl, alookup_aset_self]
        · simp [pushCopyStep, hif, hl, alookup_aset_ne _ _ _ _ hxh, hx]

theorem pushCopyFold_mono (lc : List (String × Commit))
    (order : List String) (cm : List (String × Commit)) (x : String)
    (hx : (alookup cm x).isSome = true) :
    (alookup (order.foldl (pushCopyStep lc) cm) x).isSome = true := by
  induction order generalizing cm with
  | nil => exact hx
  | cons h rest ih => exact ih _ (pushCopyStep_mono lc cm h x hx)

theorem pushCopyFold_isSome (lc : List (String × Commit))
    (order : List String) (cm : List (String × Commit)) (x : String)
    (hmem : x ∈ order) (hloc : (alookup lc x).isSome = true) :
    (alookup (order.foldl (pushCopyStep lc) cm) x).isSome = true := by
  induction order generalizing cm with
  | nil => simp at hmem
  | cons h rest ih =>
      rcases List.mem_cons.1 hmem with rfl | hmem'
      · rw [List.foldl_cons]
        apply pushCopyFold_mono
        by_cases hif : (alookup cm x).isSome = true
        · simp [pushCopyStep, hif]
        · cases hl : alookup lc x with
          | none => rw [hl] at hloc; simp at hloc
          | some c =>
              have hstep : pushCopyStep lc cm x = aset cm x c := by
                unfold pushCopyStep
                rw [if_neg hif, hl]
              rw [hstep, alookup_aset_self]
              rfl
      · exact ih _ hmem'

theorem reachable_isSome (commits : List (String × Commit)) (root h : String)
    (hroot : (alookup commits root).isSome = true)
    (hclosed : ∀ e ∈ commits, ∀ p ∈ e.2.parents,
      (alookup commits p).isSome = true)
    (hr : ReachableFrom commits root h) :
    (alookup commits h).isSome = true := by
  induction hr with
  | refl => exact hroot
  | parent hprev hcur hp ih => exact hclosed _ (alookup_mem _ _ _ hcur) _ hp

/-- C8: after a successful `git push`, the remote repository stored at
the remote's URL has the pushed branch equal to the local branch head,
and every local commit reachable from that head exists in the remote's
commits map.  The hypotheses are invariants every simulator-built state
satisfies: every commit key appears in `commitOrder`, parents of stored
commits exist, branch heads are stored commits, and hashes are
non-empty 12-character hex strings. -/
theorem push_spec (s : RepoState) (store : RemoteStore) (args : List String)
    (url bHead : String)
    (hinit : s.initialized = true)
    (hurl : alookup s.remotes (pushRemoteName s args) = some url)
    (hurlne : jsTrim url ≠ "")
    (hlocal : alookup s.branches (pushBranchName s args) = some (some bHead))
    (hbne : bHead ≠ "")
    (hhead : (alookup s.commits bHead).isSome = true)
    (horder : ∀ e ∈ s.commits, e.1 ∈ s.commitOrder)
    (hclosed : ∀ e ∈ s.commits, ∀ p ∈ e.2.parents,
      (alookup s.commits p).isSome = true) :
    (gitPush s store args).1.ok = true ∧
    ∃ remote',
      alookup (gitPush s store args).2.2.byUrl (jsTrim url) = some remote' ∧
      alookup remote'.branches (pushBranchName s args) = some (some bHead) ∧
      ∀ h, ReachableFrom s.commits bHead h →
        (alookup remote'.commits h).isSome = true := by
  cases hsb : alookup store.byUrl (jsTrim url) with
  | none =>
      refine ⟨?_, ?_⟩
      · simp [gitPush, hinit, hurl, ensureRepo, hurlne, hsb, hlocal, jsOrNull,
          hbne, Option.join]
      · simp only [gitPush, hinit, hurl, ensureRepo, hurlne, hsb, hlocal]
        simp only [Bool.true_eq_false, if_false, ite_false, Option.join,
          jsOrNull]
        simp [hurlne, hbne]
        refine ⟨_, alookup_aset_self _ _ _, alookup_aset_self _ _ _, ?_⟩
        intro h hr
        have hs := reachable_isSome s.commits bHead h hhead hclosed hr
        obtain ⟨c, hc⟩ := Option.isSome_iff_exists.1 hs
        exact pushCopyFold_isSome s.commits s.commitOrder _ h
          (horder (h, c) (alookup_mem _ _ _ hc)) hs
  | some repo =>
      refine ⟨?_, ?_⟩
      · simp [gitPush, hinit, hurl, ensureRepo, hurlne, hsb, hlocal, jsOrNull,
          hbne, Option.join]
      · simp only [gitPush, hinit, hurl, ensureRepo, hurlne, hsb, hlocal]
        simp only [Bool.true_eq_false, if_false, ite_false, Option.join,
          jsOrNull]
        simp [hurlne, hbne]
        refine ⟨_, alookup_aset_self _ _ _, alookup_aset_self _ _ _, ?_⟩
        intro h hr
        have hs := reachable_isSome s.commits bHead h hhead hclosed hr
        obtain ⟨c, hc⟩ := Option.isSome_iff_exists.1 hs
        exact pushCopyFold_isSome s.commits s.commitOrder _ h
          (horder (h, c) (alookup_mem _ _ _ hc)) hs

/-- A one-commit repository with an `origin` remote, ready to push. -/
def pushWitnessState : RepoState :=
  { resetState with
    initialized := true,
    workingFiles := [("/R", "# X")],
    commits := [("c1aaaabbbbcc",
      ⟨"c1aaaabbbbcc", "a", [], 5, [("/R", "# X")], 0, "main"⟩)],
    commitOrder := ["c1aaaabbbbcc"],
    branches := [("main", some "c1aaaabbbbcc")],
    remotes := [("origin", "https://example.com/r.git")] }

/-- Witness for `push_spec`: pushing `main` to `origin` succeeds. -/
theorem push_spec_witness :
    (gitPush pushWitnessState ⟨[]⟩ ["origin", "main"]).1.ok = true := by
  have h := push_spec pushWitnessState ⟨[]⟩ ["origin", "main"]
    "https://example.com/r.git" "c1aaaabbbbcc" rfl (by decide) (by decide)
    (by decide) (by decide) (by decide) (by decide) (by decide)
  exact h.1

/-! ### C7 — merge fast-forward and already-up-to-date cases -/

theorem head_setHead (s : RepoState) (h : Option String) :
    (s.setHead h).head = h := by
  simp [RepoState.setHead, RepoState.head, alookup_aset_self]

theorem getHeadSnapshot_setHead (s : RepoState) (h : Option String) :
    getHeadSnapshot (s.setHead h) = getSnapshot s h := by
  unfold getHeadSnapshot
  rw [head_setHead]
  cases h <;> rfl

/-- C7 (amended): on a clean tree, merging a branch whose head is an
ancestor of the current HEAD *while the current HEAD is not an ancestor
of the target* reports "Already up to date." and changes no state;
merging a branch the current HEAD can fast-forward to (HEAD null,
or an ancestor of the target head) succeeds with exit 0, sets the
current branch head to the target head and replaces the working tree
with that commit's snapshot.  The extra non-ancestor condition is
forced: with equal heads both original conditions hold and the code
takes the fast-forward branch, not the already-up-to-date one. -/
theorem merge_ff_or_up_to_date (s : RepoState) (theirBranch hash : String)
    (time : Nat) (thOpt : Option String)
    (hinit : s.initialized = true)
    (hclean : (getStatus s).isDirty = false)
    (htb : theirBranch ≠ "")
    (hbr : alookup s.branches theirBranch = some thOpt) :
    (∀ o t, s.head = some o → o ≠ "" → thOpt = some t → t ≠ "" →
      isAncestor s t o = true → isAncestor s o t = false →
      gitMerge s [theirBranch] hash time =
        (⟨true, 0, ["Already up to date."], []⟩, s)) ∧
    (∀ t, thOpt = some t → t ≠ "" →
      (s.head = none ∨ s.head = some "" ∨
        ∃ o, s.head = some o ∧ o ≠ "" ∧ isAncestor s o t = true) →
      (gitMerge s [theirBranch] hash time).1.ok = true ∧
      (gitMerge s [theirBranch] hash time).1.exitCode = 0 ∧
      alookup (gitMerge s [theirBranch] hash time).2.branches
        s.currentBranch = some (some t) ∧
      (gitMerge s [theirBranch] hash time).2.workingFiles =
        getSnapshot s (some t)) := by
  constructor
  · intro o t ho hone ht htne hanc1 hanc2
    simp [gitMerge, hinit, hclean, htb, hbr, ht, jsOrNull, htne, ho, hone,
      hanc1, hanc2]
  · intro t ht htne hcase
    have hred : gitMerge s [theirBranch] hash time =
        (⟨true, 0, ["Fast-forward (simulated)."], []⟩,
         { s.setHead (some t) with
           workingFiles := getHeadSnapshot (s.setHead (some t)),
           lastEvent := some (Event.gitMergeFF theirBranch) }) := by
      rcases hcase with hnone | hempty | ⟨o, ho, hone, hanc⟩
      · simp [gitMerge, hinit, hclean, htb, hbr, ht, jsOrNull, htne, hnone]
      · simp [gitMerge, hinit, hclean, htb, hbr, ht, jsOrNull, htne, hempty]
      · simp [gitMerge, hinit, hclean, htb, hbr, ht, jsOrNull, htne, ho, hone,
          hanc]
    refine ⟨by rw [hred], by rw [hred], ?_, ?_⟩
    · rw [hred]
      show alookup (s.setHead (some t)).branches s.currentBranch =
        some (some t)
      simp [RepoState.setHead, alookup_aset_self]
    · rw [hred]
      show getHeadSnapshot (s.setHead (some t)) = getSnapshot s (some t)
      exact getHeadSnapshot_setHead s (some t)

/-- A clean two-branch repository whose `main` and `dev` heads are the
same commit. -/
def mergeEqState : RepoState :=
  { resetState with
    initialized := true,
    workingFiles := [("/F", "1")],
    commits := [("c1aaaabbbbcc",
      ⟨"c1aaaabbbbcc", "a", [], 5, [("/F", "1")], 0, "main"⟩)],
    commitOrder := ["c1aaaabbbbcc"],
    branches := [("main", some "c1aaaabbbbcc"), ("dev", some "c1aaaabbbbcc")],
    branchMeta := [("main", ⟨0, "#4cc9f0"⟩), ("dev", ⟨1, "#b392f0"⟩)] }

/-- Counterexample to C7 as stated: with equal heads the target head
*is* an ancestor of the current HEAD, yet the merge reports
"Fast-forward (simulated)." instead of "Already up to date.". -/
theorem merge_equal_heads_counterexample :
    (getStatus mergeEqState).isDirty = false ∧
    isAncestor mergeEqState "c1aaaabbbbcc" "c1aaaabbbbcc" = true ∧
    (gitMerge mergeEqState ["dev"] "ffffffaaaaaa" 9).1.stdout =
      ["Fast-forward (simulated)."] ∧
    (gitMerge mergeEqState ["dev"] "ffffffaaaaaa" 9).1.stdout ≠
      ["Already up to date."] := by
  decide

/-- A clean repository where `dev`'s head is a strict ancestor of
`main`'s head. -/
def mergeAncState : RepoState :=
  { resetState with
    initialized := true,
    workingFiles := [("/F", "2")],
    commits :=
      [("c1aaaabbbbcc",
        ⟨"c1aaaabbbbcc", "a", [], 5, [("/F", "1")], 0, "main"⟩),
       ("c2aaaabbbbcc",
        ⟨"c2aaaabbbbcc", "b", ["c1aaaabbbbcc"], 6, [("/F", "2")], 0,
         "main"⟩)],
    commitOrder := ["c1aaaabbbbcc", "c2aaaabbbbcc"],
    branches := [("main", some "c2aaaabbbbcc"), ("dev", some "c1aaaabbbbcc")],
    branchMeta := [("main", ⟨0, "#4cc9f0"⟩), ("dev", ⟨1, "#b392f0"⟩)] }

/-- Witness for `merge_ff_or_up_to_date`: merging a strict ancestor
reports "Already up to date." and leaves the state unchanged. -/
theorem merge_ff_or_up_to_date_witness :
    gitMerge mergeAncState ["dev"] "ffffffaaaaaa" 9 =
      (⟨true, 0, ["Already up to date."], []⟩, mergeAncState) :=
  (merge_ff_or_up_to_date mergeAncState "dev" "ffffffaaaaaa" 9
      (some "c1aaaabbbbcc") rfl (by decide) (by decide) (by decide)).1
    "c2aaaabbbbcc" "c1aaaabbbbcc" (by decide) (by decide) (by decide)
    (by decide) (by decide) (by decide)

/-! ### C6 — three-way merge content -/

theorem alookup_adel_self {α : Type} (l : List (String × α)) (k : String) :
    alookup (adel l k) k = none := by
  induction l with
  | nil => simp [adel, alookup]
  | cons e rest ih =>
      obtain ⟨k0, v0⟩ := e
      by_cases h0 : k0 = k
      · simp [adel, h0, ih]
      · simp [adel, alookup, h0, ih]

theorem alookup_adel_ne {α : Type} (l : List (String × α)) (k q : String)
    (h : q ≠ k) : alookup (adel l k) q = alookup l q := by
  induction l with
  | nil => simp [adel]
  | cons e rest ih =>
      obtain ⟨k0, v0⟩ := e
      by_cases h0 : k0 = k
      · subst h0
        simp [adel, alookup, Ne.symm h, ih]
      · simp [adel, alookup, h0, ih]

/-- The per-path readout of the `gitMerge` three-way loop body: what the
loop stores (or deletes: `none`) at this path.  `mergeStep_fst_lookup`
proves it agrees with the loop. -/
def mergeDecision (base oursSnap theirsSnap : List (String × String))
    (theirBranch path : String) : Option String :=
  let b := alookup base path
  let o := alookup oursSnap path
  let t := alookup theirsSnap path
  if o = t then o
  else if o = b then t
  else if t = b then o
  else some (conflictBuffer (o.getD "") (t.getD "") theirBranch)

theorem mergeStep_fst_lookup (base oursSnap theirsSnap : List (String × String))
    (tb : String) (acc : List (String × String) × List String) (x q : String) :
    alookup (mergeStep base oursSnap theirsSnap tb acc x).1 q =
    if q = x then mergeDecision base oursSnap theirsSnap tb x
    else alookup acc.1 q := by
  by_cases hq : q = x
  · subst hq
    simp only [mergeStep, mergeDecision, if_pos rfl]
    split_ifs with h1 h2 h3
    · cases alookup oursSnap q <;>
        simp [alookup_aset_self, alookup_adel_self]
    · cases alookup theirsSnap q <;>
        simp [alookup_aset_self, alookup_adel_self]
    · cases alookup oursSnap q <;>
        simp [alookup_aset_self, alookup_adel_self]
    · simp [alookup_aset_self]
  · simp only [mergeStep, mergeDecision, if_neg hq]
    split_ifs with h1 h2 h3
    · cases alookup oursSnap x <;>
        simp [alookup_aset_ne _ _ _ _ hq, alookup_adel_ne _ _ _ hq]
    · cases alookup theirsSnap x <;>
        simp [alookup_aset_ne _ _ _ _ hq, alookup_adel_ne _ _ _ hq]
    · cases alookup oursSnap x <;>
        simp [alookup_aset_ne _ _ _ _ hq, alookup_adel_ne _ _ _ hq]
    · simp [alookup_aset_ne _ _ _ _ hq]

theorem mergeStep_snd (base oursSnap theirsSnap : List (String × String))
    (tb : String) (acc : List (String × String) × List String) (x : String) :
    (mergeStep base oursSnap theirsSnap tb acc x).2 =
    if alookup oursSnap x ≠ alookup theirsSnap x ∧
        alookup oursSnap x ≠ alookup base x ∧
        alookup theirsSnap x ≠ alookup base x
    then acc.2 ++ [x] else acc.2 := by
  unfold mergeStep
  by_cases h1 : alookup oursSnap x = alookup theirsSnap x
  · rw [if_pos h1, if_neg (by simp [h1])]
  · by_cases h2 : alookup oursSnap x = alookup base x
    · rw [if_neg h1, if_pos h2, if_neg (by simp [h2])]
    · by_cases h3 : alookup theirsSnap x = alookup base x
      · rw [if_neg h1, if_neg h2, if_pos h3, if_neg (by simp [h3])]
      · rw [if_neg h1, if_neg h2, if_neg h3, if_pos ⟨h1, h2, h3⟩]

theorem mergeFold_lookup (base oursSnap theirsSnap : List (String × String))
    (tb : String) (paths : List String)
    (acc : List (String × String) × List String) (q : String) :
    alookup (paths.foldl (mergeStep base oursSnap theirsSnap tb) acc).1 q =
    if q ∈ paths then mergeDecision base oursSnap theirsSnap tb q
    else alookup acc.1 q := by
  induction paths generalizing acc with
  | nil => simp
  | cons x rest ih =>
      rw [List.foldl_cons, ih, mergeStep_fst_lookup]
      by_cases hqr : q ∈ rest
      · simp [hqr]
      · by_cases hqx : q = x
        · subst hqx
          simp [hqr]
        · simp [hqr, hqx]

theorem mergeFold_conflicts_mem (base oursSnap theirsSnap : List (String × String))
    (tb : String) (paths : List String)
    (acc : List (String × String) × List String) (q : String) :
    q ∈ (paths.foldl (mergeStep base oursSnap theirsSnap tb) acc).2 ↔
      q ∈ acc.2 ∨ (q ∈ paths ∧ alookup oursSnap q ≠ alookup theirsSnap q ∧
        alookup oursSnap q ≠ alookup base q ∧
        alookup theirsSnap q ≠ alookup base q) := by
  induction paths generalizing acc with
  | nil => simp
  | cons x rest ih =>
      rw [List.foldl_cons, ih, mergeStep_snd]
      by_cases hqx : q = x
      · subst hqx
        split_ifs with hcx
        · simp only [List.mem_append, List.mem_singleton, List.mem_cons]
          tauto
        · simp only [List.mem_cons]
          tauto
      · split_ifs with hcx
        · simp only [List.mem_append, List.mem_singleton, List.mem_cons]
          tauto
        · simp only [List.mem_cons]
          tauto

theorem mem_mergePaths_of_ne (base oursSnap theirsSnap : List (String × String))
    (q : String) (h : alookup oursSnap q ≠ alookup theirsSnap q) :
    q ∈ jsDedup (akeys base ++ akeys oursSnap ++ akeys theirsSnap) := by
  rw [mem_jsDedup]
  cases ho : alookup oursSnap q with
  | none =>
      cases ht : alookup theirsSnap q with
      | none => exact absurd (ho.trans ht.symm) h
      | some w =>
          have hmem := (alookup_isSome_iff theirsSnap q).1 (by simp [ht])
          simp [hmem]
  | some v =>
      have hmem := (alookup_isSome_iff oursSnap q).1 (by simp [ho])
      simp [hmem]

/-- C6 (amended): in a diverged merge, a path whose ours and theirs
contents both differ from each other and from the chosen base conflicts:
the merge exits 1, records the path in `mergeState.conflicts`, and the
working-tree file becomes
`"<<<<<<< HEAD\n" ++ ours ++ "\n=======\n" ++ theirs ++ "\n>>>>>>> " ++ branch ++ "\n"`
— with a trailing newline after the branch name, which the original
claim omits.  Non-conflicting paths take the common side, theirs when
ours equals base, and ours when theirs equals base. -/
theorem merge_conflict_spec (s : RepoState) (theirBranch hash : String)
    (time : Nat) (o t p : String)
    (hinit : s.initialized = true)
    (hclean : (getStatus s).isDirty = false)
    (htb : theirBranch ≠ "")
    (hbr : alookup s.branches theirBranch = some (some t)) (htne : t ≠ "")
    (ho : s.head = some o) (hone : o ≠ "")
    (hanc1 : isAncestor s o t = false) (hanc2 : isAncestor s t o = false)
    (hc1 : alookup (getSnapshot s (some o)) p ≠
      alookup (getSnapshot s (some t)) p)
    (hc2 : alookup (getSnapshot s (some o)) p ≠
      alookup (getSnapshot s (findCommonAncestor s o t)) p)
    (hc3 : alookup (getSnapshot s (some t)) p ≠
      alookup (getSnapshot s (findCommonAncestor s o t)) p) :
    (gitMerge s [theirBranch] hash time).1.exitCode = 1 ∧
    (gitMerge s [theirBranch] hash time).1.ok = false ∧
    (∃ ms, (gitMerge s [theirBranch] hash time).2.mergeState = some ms ∧
      ms.theirBranch = theirBranch ∧ ms.theirHash = t ∧ p ∈ ms.conflicts) ∧
    alookup (gitMerge s [theirBranch] hash time).2.workingFiles p =
      some (conflictBuffer ((alookup (getSnapshot s (some o)) p).getD "")
        ((alookup (getSnapshot s (some t)) p).getD "") theirBranch) ∧
    (∀ q,
      (alookup (getSnapshot s (some o)) q = alookup (getSnapshot s (some t)) q →
        alookup (gitMerge s [theirBranch] hash time).2.workingFiles q =
          alookup (getSnapshot s (some o)) q) ∧
      (alookup (getSnapshot s (some o)) q ≠ alookup (getSnapshot s (some t)) q →
        alookup (getSnapshot s (some o)) q =
          alookup (getSnapshot s (findCommonAncestor s o t)) q →
        alookup (gitMerge s [theirBranch] hash time).2.workingFiles q =
          alookup (getSnapshot s (some t)) q) ∧
      (alookup (getSnapshot s (some o)) q ≠ alookup (getSnapshot s (some t)) q →
        alookup (getSnapshot s (some o)) q ≠
          alookup (getSnapshot s (findCommonAncestor s o t)) q →
        alookup (getSnapshot s (some t)) q =
          alookup (getSnapshot s (findCommonAncestor s o t)) q →
        alookup (gitMerge s [theirBranch] hash time).2.workingFiles q =
          alookup (getSnapshot s (some o)) q)) := by
  have hred : gitMerge s [theirBranch] hash time =
      mergeDiverged s theirBranch o t hash time := by
    simp [gitMerge, hinit, hclean, htb, hbr, jsOrNull, htne, ho, hone,
      hanc1, hanc2]
  rw [hred]
  simp only [mergeDiverged]
  set base := getSnapshot s (findCommonAncestor s o t) with hbasedef
  set oursSnap := getSnapshot s (some o) with hoursdef
  set theirsSnap := getSnapshot s (some t) with htheirsdef
  set paths := jsDedup (akeys base ++ akeys oursSnap ++ akeys theirsSnap)
    with hpathsdef
  set folded :=
    paths.foldl (mergeStep base oursSnap theirsSnap theirBranch)
      (oursSnap, []) with hfoldeddef
  have hpP : p ∈ paths :=
    mem_mergePaths_of_ne base oursSnap theirsSnap p hc1
  have hpc : p ∈ folded.2 := by
    rw [hfoldeddef]
    exact (mergeFold_conflicts_mem base oursSnap theirsSnap theirBranch paths
      (oursSnap, []) p).2 (Or.inr ⟨hpP, hc1, hc2, hc3⟩)
  have hlookup : ∀ q, alookup folded.1 q =
      if q ∈ paths then mergeDecision base oursSnap theirsSnap theirBranch q
      else alookup oursSnap q := by
    intro q
    rw [hfoldeddef]
    exact mergeFold_lookup base oursSnap theirsSnap theirBranch paths
      (oursSnap, []) q
  cases hfc : folded.2 with
  | nil => rw [hfc] at hpc; simp at hpc
  | cons c0 crest =>
      simp only [hfc]
      refine ⟨by trivial, by trivial,
        ⟨⟨theirBranch, t, c0 :: crest⟩, by trivial, by trivial, by trivial,
          hfc ▸ hpc⟩, ?_, ?_⟩
      · show alookup folded.1 p = _
        rw [hlookup p, if_pos hpP]
        simp [mergeDecision, hc1, hc2, hc3]
      · intro q
        refine ⟨?_, ?_, ?_⟩
        · intro heq
          show alookup folded.1 q = _
          rw [hlookup q]
          by_cases hqP : q ∈ paths
          · simp [hqP, mergeDecision, heq]
          · simp [hqP]
        · intro hne heq
          have hqP : q ∈ paths :=
            mem_mergePaths_of_ne base oursSnap theirsSnap q hne
          show alookup folded.1 q = _
          rw [hlookup q, if_pos hqP]
          simp [mergeDecision, hne, heq]
        · intro hne hneb heq
          have hqP : q ∈ paths :=
            mem_mergePaths_of_ne base oursSnap theirsSnap q hne
          show alookup folded.1 q = _
          rw [hlookup q, if_pos hqP]
          simp [mergeDecision, hne, hneb, heq]

/-- The standard conflict scenario: base `config=blue`, ours (`main`)
`config=red`, theirs (`feat`) `config=green`, clean working tree. -/
def mergeConflictState : RepoState :=
  { resetState with
    initialized := true,
    workingFiles := [("/config", "red")],
    commits :=
      [("b0aaaabbbbcc",
        ⟨"b0aaaabbbbcc", "base", [], 4, [("/config", "blue")], 0, "main"⟩),
       ("c1aaaabbbbcc",
        ⟨"c1aaaabbbbcc", "red", ["b0aaaabbbbcc"], 5, [("/config", "red")], 0,
         "main"⟩),
       ("c2aaaabbbbcc",
        ⟨"c2aaaabbbbcc", "green", ["b0aaaabbbbcc"], 6, [("/config", "green")],
         1, "feat"⟩)],
    commitOrder := ["b0aaaabbbbcc", "c1aaaabbbbcc", "c2aaaabbbbcc"],
    branches := [("main", some "c1aaaabbbbcc"), ("feat", some "c2aaaabbbbcc")],
    branchMeta := [("main", ⟨0, "#4cc9f0"⟩), ("feat", ⟨1, "#b392f0"⟩)] }

/-- Counterexample to C6 as stated: the conflict buffer the merge writes
carries a trailing newline after the branch name, so it is not equal to
the claim's stated concatenation (which ends at the branch name). -/
theorem merge_conflict_buffer_counterexample :
    (gitMerge mergeConflictState ["feat"] "eeeeeeffffff" 9).1.exitCode = 1 ∧
    alookup (gitMerge mergeConflictState ["feat"] "eeeeeeffffff" 9
      ).2.workingFiles "/config" =
      some "<<<<<<< HEAD\nred\n=======\ngreen\n>>>>>>> feat\n" ∧
    alookup (gitMerge mergeConflictState ["feat"] "eeeeeeffffff" 9
      ).2.workingFiles "/config" ≠
      some "<<<<<<< HEAD\nred\n=======\ngreen\n>>>>>>> feat" := by
  decide

/-- Witness for `merge_conflict_spec` at `mergeConflictState` with the
conflicting path `/config`. -/
theorem merge_conflict_spec_witness :
    (gitMerge mergeConflictState ["feat"] "eeeeeeffffff" 9).1.exitCode = 1 ∧
    alookup (gitMerge mergeConflictState ["feat"] "eeeeeeffffff" 9
      ).2.workingFiles "/config" =
      some (conflictBuffer "red" "green" "feat") := by
  have h := merge_conflict_spec mergeConflictState "feat" "eeeeeeffffff" 9
    "c1aaaabbbbcc" "c2aaaabbbbcc" "/config" rfl (by decide) (by decide)
    (by decide) (by decide) (by decide) (by decide) (by decide) (by decide)
    (by decide) (by decide) (by decide)
  exact ⟨h.1, by
    have hb := h.2.2.2.1
    simpa using hb⟩

end GitTutor
